import Mathlib

/-
Verification development for the repository consisting of `agent.py` and
`image.py`.  Python strings are modelled as `List Char`, Python numbers as
`Int` / `ℚ`, Python dicts as association lists, and every external HTTP /
database-client call as an oracle function supplied as a parameter.  The
only fixed regular expressions of the source are implemented directly as
deterministic matchers that realise the backtracking semantics of the
concrete patterns (documented at each matcher).
-/

/-- Convert a Lean string literal to the `List Char` representation used
throughout this development. -/
def lc (s : String) : List Char := s.toList

/-- The single-quote character (used by the SQL-literal handling of
`execute_sql_query`). -/
def sqc : Char := Char.ofNat 39

/-- Python `str.strip()` whitespace and the regex class `\s`, restricted to
ASCII: space, tab, newline, carriage return, vertical tab, form feed. -/
def pyIsSpace (c : Char) : Bool :=
  c = ' ' || c = '\t' || c = '\n' || c = '\r' || c = Char.ofNat 11 || c = Char.ofNat 12

/-- ASCII decimal digit (regex `\d`, Python `str.isdigit` on ASCII input). -/
def isDigitChar (c : Char) : Bool := '0' ≤ c && c ≤ '9'

/-- Regex word character `\w` on ASCII input: letters, digits, underscore. -/
def isWordChar (c : Char) : Bool :=
  ('a' ≤ c && c ≤ 'z') || ('A' ≤ c && c ≤ 'Z') || isDigitChar c || c = '_'

/-- ASCII lower-casing of one character (Python `str.lower` on ASCII). -/
def lowerChar (c : Char) : Char :=
  if 'A' ≤ c && c ≤ 'Z' then Char.ofNat (c.toNat + 32) else c

/-- ASCII upper-casing of one character (Python `str.upper` on ASCII). -/
def upperChar (c : Char) : Char :=
  if 'a' ≤ c && c ≤ 'z' then Char.ofNat (c.toNat - 32) else c

/-- Python `s.lower()` on ASCII input. -/
def asciiLower (l : List Char) : List Char := l.map lowerChar

/-- Python `s.upper()` on ASCII input. -/
def asciiUpper (l : List Char) : List Char := l.map upperChar

/-- Drop leading characters satisfying `p` (Python `lstrip`). -/
def lstripP (p : Char → Bool) (l : List Char) : List Char := l.dropWhile p

/-- Drop trailing characters satisfying `p` (Python `rstrip`). -/
def rstripP (p : Char → Bool) (l : List Char) : List Char :=
  (l.reverse.dropWhile p).reverse

/-- Python `str.strip()` with the default whitespace set. -/
def pyStripWs (l : List Char) : List Char := rstripP pyIsSpace (lstripP pyIsSpace l)

/-- `query.strip().rstrip(';')` — the normalisation `execute_sql_query`
applies to its argument before any interpretation (agent.py line 281). -/
def pyNormalize (l : List Char) : List Char := rstripP (fun c => c = ';') (pyStripWs l)

/-- Python `str.split(',')`: split at every comma, keeping empty pieces. -/
def splitComma : List Char → List (List Char)
  | [] => [[]]
  | c :: rest =>
      if c = ',' then [] :: splitComma rest
      else
        match splitComma rest with
        | g :: gs => (c :: g) :: gs
        | [] => [[c]]

/-- Python `item.split('=', 1)` when `'=' in item`: the part before the
first `'='` and the part after it. -/
def splitEq1 : List Char → Option (List Char × List Char)
  | [] => none
  | c :: rest =>
      if c = '=' then some ([], rest)
      else (splitEq1 rest).map (fun p => (c :: p.1, p.2))

/-- Python substring test `pat in s` (`True` for the empty pattern). -/
def containsB (pat : List Char) : List Char → Bool
  | [] => pat.isEmpty
  | c :: rest => pat.isPrefixOf (c :: rest) || containsB pat rest

/-- Case-insensitive literal matcher: consume `pat` (given lower-case) from
the front of `l`, comparing ASCII-case-insensitively; return the rest. -/
def litCI : List Char → List Char → Option (List Char)
  | [], l => some l
  | _ :: _, [] => none
  | p :: ps, c :: cs => if lowerChar c = p then litCI ps cs else none

/-- Regex `\s+`: consume a maximal non-empty whitespace run. -/
def wsRun1 : List Char → Option (List Char)
  | [] => none
  | c :: rest => if pyIsSpace c then some (rest.dropWhile pyIsSpace) else none

/-- Regex `\s*`: consume a maximal (possibly empty) whitespace run. -/
def wsRun0 (l : List Char) : List Char := l.dropWhile pyIsSpace

/-- Regex `(\w+)`: consume a maximal non-empty word-character run,
returning the run and the rest. -/
def word1 (l : List Char) : Option (List Char × List Char) :=
  match l.takeWhile isWordChar with
  | [] => none
  | w => some (w, l.dropWhile isWordChar)

/-- Regex `(\S+)`: consume a maximal non-empty non-whitespace run. -/
def nonWs1 (l : List Char) : Option (List Char × List Char) :=
  match l.takeWhile (fun c => !pyIsSpace c) with
  | [] => none
  | w => some (w, l.dropWhile (fun c => !pyIsSpace c))

/-- Value of a list of ASCII digits read in base 10. -/
def digitsVal (l : List Char) : Nat := l.foldl (fun a c => a * 10 + (c.toNat - 48)) 0

/-- Tail of a Python numeric digit-part after its first digit: digits with
single underscores allowed only between digits. -/
def digitpartTail : List Char → Bool
  | [] => true
  | c :: rest =>
      if isDigitChar c then digitpartTail rest
      else if c = '_' then
        match rest with
        | d :: r2 => isDigitChar d && digitpartTail r2
        | [] => false
      else false

/-- A valid Python numeric digit-part (`digit (["_"] digit)*`). -/
def digitpartValid : List Char → Bool
  | [] => false
  | c :: rest => isDigitChar c && digitpartTail rest

/-- Remove the underscores of a digit-part. -/
def stripUnderscores (l : List Char) : List Char := l.filter (fun c => c ≠ '_')

/-- Number of digits of a digit-part once underscores are removed. -/
def digitCount (l : List Char) : Nat := (stripUnderscores l).length

/-- Split `l` at the first character satisfying `p`: the part before it and
the part after it (the matching character itself dropped). -/
def splitFirst (p : Char → Bool) : List Char → Option (List Char × List Char)
  | [] => none
  | c :: rest =>
      if p c then some ([], rest)
      else (splitFirst p rest).map (fun q => (c :: q.1, q.2))

/-- Optional leading `+`/`-` sign of a Python numeric literal: the sign as
`1`/`-1` and the remaining characters. -/
def signSplit : List Char → Int × List Char
  | [] => (1, [])
  | c :: rest =>
      if c = '+' then (1, rest)
      else if c = '-' then (-1, rest)
      else (1, c :: rest)

/-- Python `int(value)` on a string: surrounding whitespace, an optional
sign, then a digit-part; `none` models `ValueError`. -/
def pyIntParse (l : List Char) : Option Int :=
  let t := pyStripWs l
  let (sgn, body) := signSplit t
  if digitpartValid body then some (sgn * (digitsVal (stripUnderscores body) : Int))
  else none

/-- Mantissa of a Python float literal (no sign, no exponent): either a
digit-part, or `digitpart "." [digitpart]`, or `"." digitpart`.  Returns the
exact rational value. -/
def mantissaParse (l : List Char) : Option ℚ :=
  match splitFirst (fun c => c = '.') l with
  | none => if digitpartValid l then some ((digitsVal (stripUnderscores l) : ℚ)) else none
  | some (a, b) =>
      if a = [] then
        if digitpartValid b then
          some ((digitsVal (stripUnderscores b) : ℚ) / ((10 : ℚ) ^ digitCount b))
        else none
      else if digitpartValid a then
        if b = [] then some ((digitsVal (stripUnderscores a) : ℚ))
        else if digitpartValid b then
          some ((digitsVal (stripUnderscores a) : ℚ)
            + (digitsVal (stripUnderscores b) : ℚ) / ((10 : ℚ) ^ digitCount b))
        else none
      else none

/-- Python `float(value)` on a finite numeric string: surrounding
whitespace, optional sign, mantissa, optional `e`/`E` exponent.  The value
is kept as an exact rational; `none` models `ValueError`.  (The `inf`/`nan`
spellings contain no `'.'` and never reach the `float` call sites of the
source, which are guarded by `'.' in value` or feed digit/dot strings.) -/
def pyFloatParse (l : List Char) : Option ℚ :=
  let t := pyStripWs l
  let (sgn, body) := signSplit t
  match splitFirst (fun c => c = 'e' || c = 'E') body with
  | none => (mantissaParse body).map (fun m => (sgn : ℚ) * m)
  | some (m, e) =>
      match mantissaParse m with
      | none => none
      | some mv =>
          let (esgn, ebody) := signSplit e
          if digitpartValid ebody then
            some ((sgn : ℚ) * mv * (10 : ℚ) ^ (esgn * (digitsVal (stripUnderscores ebody) : Int)))
          else none

/-- Python `str.isdigit()` on ASCII input: non-empty and all digits. -/
def isDigitStr (l : List Char) : Bool := !l.isEmpty && l.all isDigitChar

/-- A Python value as it flows into the database client: `None`, a string,
an `int`, or a `float` (kept exact as a rational). -/
inductive PyVal where
  | none
  | str (s : List Char)
  | int (n : Int)
  | float (q : ℚ)
deriving DecidableEq, Repr

/-- `value.startswith(q) and value.endswith(q)` for a one-character
delimiter `q`; like Python, a single-character string counts. -/
def quotedBy (q : Char) (l : List Char) : Bool :=
  match l with
  | [] => false
  | c :: rest =>
      c = q && (match (c :: rest).getLast? with
                | some d => d = q
                | Option.none => false)

/-- Python `value[1:-1]`. -/
def unquote (l : List Char) : List Char := (l.drop 1).dropLast

/-- The literal coercion used for INSERT values and UPDATE SET values
(agent.py lines 293-313 and 344-360): `NULL` (case-insensitive) becomes
`None`; a token enclosed in matching single or double quotes is unquoted;
otherwise a token containing `'.'` goes through `float(...)` and any other
token through `int(...)`, with the original string kept on `ValueError`. -/
def coerceVal (v : List Char) : PyVal :=
  if asciiUpper v = lc ("NULL") then PyVal.none
  else if quotedBy sqc v || quotedBy '"' v then PyVal.str (unquote v)
  else if containsB (lc (".")) v then
    match pyFloatParse v with
    | some q => PyVal.float q
    | Option.none => PyVal.str v
  else
    match pyIntParse v with
    | some n => PyVal.int n
    | Option.none => PyVal.str v

/-- The different coercion used for WHERE values in the UPDATE and DELETE
branches (agent.py lines 369-373 and 409-413): only single quotes are
stripped, only all-digit tokens become ints, and everything else is kept as
the original string. -/
def coerceWhere (v : List Char) : PyVal :=
  if quotedBy sqc v then PyVal.str (unquote v)
  else if isDigitStr v then PyVal.int (digitsVal v)
  else PyVal.str v

/-- Lazy `(.*?)` followed by the continuation `k` (with `.` not matching a
newline, as none of the fixed patterns use `re.DOTALL` here): the shortest
prefix of non-newline characters after which `k` succeeds, together with
`k`'s leftover. -/
def lazyDotUpto (k : List Char → Option (List Char)) : List Char → Option (List Char × List Char)
  | [] =>
      match k [] with
      | some r => some ([], r)
      | Option.none => Option.none
  | c :: rest =>
      match k (c :: rest) with
      | some r => some ([], r)
      | Option.none =>
          if c = '\n' then Option.none
          else
            match lazyDotUpto k rest with
            | some (g, r) => some (c :: g, r)
            | Option.none => Option.none

/-- Continuation `\)\s*values\s*\(` of the first lazy group of the INSERT
pattern. -/
def contValues (l : List Char) : Option (List Char) :=
  match l with
  | c :: rest =>
      if c = ')' then
        match litCI (lc ("values")) (wsRun0 rest) with
        | some r2 =>
            match wsRun0 r2 with
            | c2 :: r3 => if c2 = '(' then some r3 else Option.none
            | [] => Option.none
        | Option.none => Option.none
      else Option.none
  | [] => Option.none

/-- Continuation `\)` of the second lazy group of the INSERT pattern. -/
def contRParen (l : List Char) : Option (List Char) :=
  match l with
  | c :: rest => if c = ')' then some rest else Option.none
  | [] => Option.none

/-- `re.match(r"insert\s+into\s+(\w+)\s*\((.*?)\)\s*values\s*\((.*?)\)",
query, re.IGNORECASE)` (agent.py line 287).  All quantifier boundaries of
the pattern are forced (whitespace, word characters and the parentheses are
pairwise disjoint), so the match is the deterministic sequence below; the
two lazy groups take the shortest non-newline stretch after which their
continuation succeeds, and trailing input is ignored (`re.match` matches a
prefix). -/
def insertMatch (q : List Char) : Option (List Char × List Char × List Char) :=
  (litCI (lc ("insert")) q).bind fun r1 =>
  (wsRun1 r1).bind fun r2 =>
  (litCI (lc ("into")) r2).bind fun r3 =>
  (wsRun1 r3).bind fun r4 =>
  (word1 r4).bind fun tw =>
  match wsRun0 tw.2 with
  | c :: r5 =>
      if c = '(' then
        (lazyDotUpto contValues r5).bind fun g2 =>
        (lazyDotUpto contRParen g2.2).map fun g3 => (tw.1, g2.1, g3.1)
      else Option.none
  | [] => Option.none

/-- Continuation `\s+where\s+` of the lazy group of the UPDATE pattern;
returns the input after the second whitespace run. -/
def contWhere (l : List Char) : Option (List Char) :=
  (wsRun1 l).bind fun r1 =>
  (litCI (lc ("where")) r1).bind fun r2 =>
  wsRun1 r2

/-- Final greedy group `(.*)` of the UPDATE / DELETE patterns: everything
up to the next newline or the end. -/
def restOfLine (l : List Char) : List Char := l.takeWhile (fun c => c ≠ '\n')

/-- Greedy `\s+` whose continuation can itself begin with whitespace (the
lazy `(.*?)` of the UPDATE pattern): the engine tries run lengths from `n`
down to 1 and keeps the first success.  At every other `\s+` / `\s*` of
these patterns the next regex element is a literal or a disjoint character
class, so only the maximal run can succeed and no such search is needed. -/
def wsThenGo {α : Type} (k : List Char → Option α) : Nat → List Char → Option α
  | 0, _ => Option.none
  | n + 1, l =>
      match k (l.drop (n + 1)) with
      | some a => some a
      | Option.none => wsThenGo k n l

/-- Regex `\s+` feeding its leftover to `k`, backtracking into the run
(longest first) as Python's engine does. -/
def wsThen1 {α : Type} (k : List Char → Option α) (l : List Char) : Option α :=
  wsThenGo k (l.takeWhile pyIsSpace).length l

/-- `re.match(r"update\s+(\w+)\s+set\s+(.*?)\s+where\s+(.*)", query,
re.IGNORECASE)` (agent.py line 330): table name, SET clause (lazy, not
crossing a newline) and WHERE clause (greedy, up to the end of its line).
The `\s+` after `set` backtracks: on `update t set  where id = 1` it
yields one space back so the lazy group matches empty and the whole
pattern succeeds with an empty SET clause, as Python's engine does. -/
def updateMatch (q : List Char) : Option (List Char × List Char × List Char) :=
  (litCI (lc ("update")) q).bind fun r1 =>
  (wsRun1 r1).bind fun r2 =>
  (word1 r2).bind fun tw =>
  (wsRun1 tw.2).bind fun r3 =>
  (litCI (lc ("set")) r3).bind fun r4 =>
  (wsThen1 (lazyDotUpto contWhere) r4).map fun g => (tw.1, g.1, restOfLine g.2)

/-- `re.match(r"delete\s+from\s+(\w+)(?:\s+where\s+(.*))?", query,
re.IGNORECASE)` (agent.py line 392): table name and, if the optional group
matches, the WHERE clause. -/
def deleteMatch (q : List Char) : Option (List Char × Option (List Char)) :=
  (litCI (lc ("delete")) q).bind fun r1 =>
  (wsRun1 r1).bind fun r2 =>
  (litCI (lc ("from")) r2).bind fun r3 =>
  (wsRun1 r3).bind fun r4 =>
  (word1 r4).map fun tw =>
    match contWhere tw.2 with
    | some r5 => (tw.1, some (restOfLine r5))
    | Option.none => (tw.1, Option.none)

/-- `re.match(r"(\w+)\s*=\s*(\S+)", where_clause)` (agent.py lines 364 and
404): a simple equality `column = token`. -/
def whereEqMatch (w : List Char) : Option (List Char × List Char) :=
  (word1 w).bind fun cw =>
  match wsRun0 cw.2 with
  | c :: r1 =>
      if c = '=' then
        (nonWs1 (wsRun0 r1)).map fun vw => (cw.1, vw.1)
      else Option.none
  | [] => Option.none

/-- A row returned by the database client, as a Python dict. -/
def PyRow : Type := List (List Char × PyVal)

instance : DecidableEq PyRow := by
  unfold PyRow
  infer_instance

/-- One call made to the Supabase client: a structured table operation or
an RPC (`none` as the argument models the empty-parameter RPC
`get_table_schema`). -/
inductive DBCall where
  | insert (table : List Char) (data : List (List Char × PyVal))
  | update (table : List Char) (data : List (List Char × PyVal))
      (eqCol : List Char) (eqVal : PyVal)
  | delete (table : List Char) (eqCol : List Char) (eqVal : PyVal)
  | rpc (fn : List Char) (sqlQuery : Option (List Char))
deriving DecidableEq

/-- A Supabase response: `error` is `some msg` when the response carries a
truthy error attribute; `data` is `some rows` when the response carries a
usable data attribute (accessing a missing one raises `AttributeError`). -/
structure DBResponse where
  error : Option (List Char)
  data : Option (List PyRow)
deriving DecidableEq

/-- The external database client: every call either returns a response or
raises an exception carrying `str(e)`. -/
def Oracle : Type := DBCall → Except (List Char) DBResponse

/-- A value returned by `execute_sql_query`: rows, an `{"error": ...}`
dict, a `{"message": ..., "success": True}` dict, the delete-success dict
with `rows_affected`, or the `{"warning": ...}` dict. -/
inductive SqlResult where
  | rows (rs : List PyRow)
  | errorDict (msg : List Char)
  | successDict (msg : List Char)
  | deleteSuccessDict (rowsAffected : Nat)
  | warningDict (msg : List Char)
deriving DecidableEq

/-- Python dict insertion: replace the value of an existing key in place,
otherwise append the pair. -/
def dictSet (d : List (List Char × PyVal)) (k : List Char) (v : PyVal) :
    List (List Char × PyVal) :=
  match d with
  | [] => [(k, v)]
  | (k2, v2) :: rest => if k2 = k then (k, v) :: rest else (k2, v2) :: dictSet rest k v

/-- The INSERT data dict (agent.py lines 290-313): stripped column names
paired with coerced stripped value tokens, in column order.  (Only called
when there are at least as many value tokens as columns; otherwise the
source raises `IndexError`.) -/
def buildInsertData (cols vals : List (List Char)) : List (List Char × PyVal) :=
  (cols.zip vals).foldl (fun d cv => dictSet d cv.1 (coerceVal cv.2)) []

/-- The UPDATE SET data dict (agent.py lines 336-360): items of the SET
clause split at commas; each item containing `'='` contributes its stripped
column and coerced stripped value, other items are skipped. -/
def buildSetData (setStr : List Char) : List (List Char × PyVal) :=
  (splitComma setStr).foldl
    (fun d item =>
      match splitEq1 item with
      | some p => dictSet d (pyStripWs p.1) (coerceVal (pyStripWs p.2))
      | Option.none => d)
    []

/-- `response.data` truthiness for a present attribute. -/
def dataTruthy (r : DBResponse) : Bool :=
  match r.data with
  | some rows => !rows.isEmpty
  | Option.none => false

/-- Handling of the INSERT response (agent.py lines 316-325). -/
def insertRespHandle (r : DBResponse) : SqlResult :=
  match r.error with
  | some e => SqlResult.errorDict (lc ("Insert failed: ") ++ e)
  | Option.none =>
      match r.data with
      | some rows => SqlResult.rows rows
      | Option.none => SqlResult.successDict (lc ("Insert was executed successfully"))

/-- Handling of the UPDATE response (agent.py lines 378-387). -/
def updateRespHandle (r : DBResponse) : SqlResult :=
  match r.error with
  | some e => SqlResult.errorDict (lc ("Update failed: ") ++ e)
  | Option.none =>
      match r.data with
      | some rows => SqlResult.rows rows
      | Option.none => SqlResult.successDict (lc ("Update was executed successfully"))

/-- Handling of the DELETE response (agent.py lines 418-427). -/
def deleteRespHandle (r : DBResponse) : SqlResult :=
  match r.error with
  | some e => SqlResult.errorDict (lc ("Delete failed: ") ++ e)
  | Option.none =>
      match r.data with
      | some rows => SqlResult.deleteSuccessDict rows.length
      | Option.none => SqlResult.successDict (lc ("Delete was executed successfully"))

/-- The INSERT branch after a successful regex match (agent.py lines
288-325): build the data dict and call the table-insert; the `values[i]`
lookup raises `IndexError` (caught by the outer handler) when there are
fewer value tokens than columns. -/
def insertBranch (ora : Oracle) (t csStr vsStr : List Char) : SqlResult × List DBCall :=
  let columns := (splitComma csStr).map pyStripWs
  let values := (splitComma vsStr).map pyStripWs
  if values.length < columns.length then
    (SqlResult.errorDict (lc ("Query failed: list index out of range")), [])
  else
    let call := DBCall.insert t (buildInsertData columns values)
    match ora call with
    | Except.error e => (SqlResult.errorDict (lc ("Query failed: ") ++ e), [call])
    | Except.ok resp => (insertRespHandle resp, [call])

/-- The UPDATE branch after both regex matches (agent.py lines 331-387). -/
def updateBranch (ora : Oracle) (t setStr wcol wvalRaw : List Char) :
    SqlResult × List DBCall :=
  let call := DBCall.update t (buildSetData setStr) wcol (coerceWhere (pyStripWs wvalRaw))
  match ora call with
  | Except.error e => (SqlResult.errorDict (lc ("Query failed: ") ++ e), [call])
  | Except.ok resp => (updateRespHandle resp, [call])

/-- The DELETE branch after both regex matches (agent.py lines 402-427). -/
def deleteBranch (ora : Oracle) (t wcol wvalRaw : List Char) : SqlResult × List DBCall :=
  let call := DBCall.delete t wcol (coerceWhere (pyStripWs wvalRaw))
  match ora call with
  | Except.error e => (SqlResult.errorDict (lc ("Query failed: ") ++ e), [call])
  | Except.ok resp => (deleteRespHandle resp, [call])

/-- The substring test deciding the success message of an empty RPC result
(agent.py lines 446-448). -/
def opWord (query : List Char) : Option (List Char) :=
  let lq := asciiLower query
  if containsB (lc ("insert")) lq then some (lc ("insert"))
  else if containsB (lc ("update")) lq then some (lc ("update"))
  else if containsB (lc ("delete")) lq then some (lc ("delete"))
  else Option.none

/-- Handling of the RPC passthrough response (agent.py lines 437-451). -/
def rpcRespHandle (query : List Char) (r : DBResponse) : SqlResult :=
  match r.error with
  | some e => SqlResult.errorDict (lc ("Database error: ") ++ e)
  | Option.none =>
      match r.data with
      | some rows =>
          if rows.isEmpty then
            match opWord query with
            | some op =>
                SqlResult.successDict
                  (lc ("The ") ++ op ++ lc (" operation was executed successfully"))
            | Option.none => SqlResult.rows []
          else SqlResult.rows rows
      | Option.none =>
          SqlResult.warningDict (lc ("Query executed but returned no data attribute"))

/-- The RPC passthrough (agent.py lines 430-451): try `run_sql_query`,
fall back to `run_sql` when the first call raises, and let the outer
handler turn a failure of the fallback into an error dict. -/
def rpcFallback (ora : Oracle) (query : List Char) : SqlResult × List DBCall :=
  let c1 := DBCall.rpc (lc ("run_sql_query")) (some query)
  match ora c1 with
  | Except.ok r => (rpcRespHandle query r, [c1])
  | Except.error _ =>
      let c2 := DBCall.rpc (lc ("run_sql")) (some query)
      match ora c2 with
      | Except.ok r => (rpcRespHandle query r, [c1, c2])
      | Except.error e2 => (SqlResult.errorDict (lc ("Query failed: ") ++ e2), [c1, c2])

/-- `query.lower().startswith("insert into")` (agent.py line 285). -/
def insertGuard (q : List Char) : Bool := (lc ("insert into")).isPrefixOf (asciiLower q)

/-- `query.lower().startswith("update")` (agent.py line 328). -/
def updateGuard (q : List Char) : Bool := (lc ("update")).isPrefixOf (asciiLower q)

/-- `query.lower().startswith("delete from")` (agent.py line 390). -/
def deleteGuard (q : List Char) : Bool := (lc ("delete from")).isPrefixOf (asciiLower q)

/-- The safety refusal returned for a DELETE without WHERE clause
(agent.py line 400). -/
def deleteSafetyMsg : List Char :=
  lc ("DELETE without WHERE clause is not allowed for safety. Please specify a WHERE condition.")

/-- The body of `execute_sql_query` after normalisation (agent.py lines
284-456): the if/elif regex dispatch; any branch that does not return falls
through to the RPC passthrough, and a matched DELETE without WHERE clause
is refused without touching the database. -/
def execute_sql_query_core (ora : Oracle) (query : List Char) : SqlResult × List DBCall :=
  if insertGuard query then
    match insertMatch query with
    | some (t, cs, vs) => insertBranch ora t cs vs
    | Option.none => rpcFallback ora query
  else if updateGuard query then
    match updateMatch query with
    | some (t, setStr, whereStr) =>
        match whereEqMatch whereStr with
        | some (wc, wv) => updateBranch ora t setStr wc wv
        | Option.none => rpcFallback ora query
    | Option.none => rpcFallback ora query
  else if deleteGuard query then
    match deleteMatch query with
    | some (t, some w) =>
        match whereEqMatch w with
        | some (wc, wv) => deleteBranch ora t wc wv
        | Option.none => rpcFallback ora query
    | some (_, Option.none) => (SqlResult.errorDict deleteSafetyMsg, [])
    | Option.none => rpcFallback ora query
  else rpcFallback ora query

/-- `execute_sql_query` (agent.py lines 275-456), also returning the list
of database-client calls it makes, in order. -/
def execute_sql_query (ora : Oracle) (q : List Char) : SqlResult × List DBCall :=
  execute_sql_query_core ora (pyNormalize q)

/-- Result of `get_supabase_schema_via_rest`: the table → columns map or an
`{"error": ...}` dict. -/
inductive SchemaResult where
  | map (m : List (PyVal × List PyVal))
  | errorDict (msg : List Char)
deriving DecidableEq

/-- `entry[key]` on a row dict; a missing key raises `KeyError`, whose
`str` is the quoted key. -/
def rowLookup (row : PyRow) (k : List Char) : Except (List Char) PyVal :=
  match row with
  | [] => Except.error ([sqc] ++ k ++ [sqc])
  | (k2, v) :: rest => if k2 = k then Except.ok v else rowLookup rest k

/-- One step of the schema-dict construction (agent.py lines 238-243 and
263-268): create the table's column list if needed, then append the
column. -/
def schemaAdd (m : List (PyVal × List PyVal)) (t c : PyVal) : List (PyVal × List PyVal) :=
  match m with
  | [] => [(t, [c])]
  | (t2, cs) :: rest =>
      if t2 = t then (t2, cs ++ [c]) :: rest else (t2, cs) :: schemaAdd rest t c

/-- Build the schema map from rows; a row without the expected keys raises
`KeyError`. -/
def buildSchema (rows : List PyRow) : Except (List Char) (List (PyVal × List PyVal)) :=
  rows.foldlM
    (fun m row =>
      (rowLookup row (lc ("table_name"))).bind fun t =>
      (rowLookup row (lc ("column_name"))).map fun c => schemaAdd m t c)
    []

/-- The fallback schema SQL of agent.py lines 249-254 (a triple-quoted
string with its indentation). -/
def schemaQueryStr : List Char :=
  lc ("\n        SELECT table_name, column_name\n        FROM information_schema.columns\n        WHERE table_schema = ")
    ++ [sqc] ++ lc ("public") ++ [sqc]
    ++ lc ("\n        ORDER BY table_name, ordinal_position\n        ")

/-- Prefix of the error message produced by the outer handler of
`get_supabase_schema_via_rest` (agent.py line 273). -/
def schemaExcMsg : List Char := lc ("Exception occurred while fetching schema: ")

/-- Stand-in for `str(AttributeError)` when a response without a usable
`data` attribute is dereferenced outside the inner try block. -/
def attrErrMsg : List Char := lc ("object has no attribute data")

/-- The SQL-fallback part of `get_supabase_schema_via_rest` (agent.py lines
248-273): `run_sql_query`, then `run_sql` when the first response has falsy
data; any raised exception reaches the outer handler. -/
def schemaFallback (ora : Oracle) : SchemaResult :=
  match ora (DBCall.rpc (lc ("run_sql_query")) (some schemaQueryStr)) with
  | Except.error e => SchemaResult.errorDict (schemaExcMsg ++ e)
  | Except.ok r =>
      match r.data with
      | Option.none => SchemaResult.errorDict (schemaExcMsg ++ attrErrMsg)
      | some rows =>
          if rows.isEmpty then
            match ora (DBCall.rpc (lc ("run_sql")) (some schemaQueryStr)) with
            | Except.error e => SchemaResult.errorDict (schemaExcMsg ++ e)
            | Except.ok r2 =>
                match r2.data with
                | Option.none => SchemaResult.errorDict (schemaExcMsg ++ attrErrMsg)
                | some rows2 =>
                    if rows2.isEmpty then
                      SchemaResult.errorDict (lc ("No data returned from schema query"))
                    else
                      match buildSchema rows2 with
                      | Except.ok m => SchemaResult.map m
                      | Except.error k => SchemaResult.errorDict (schemaExcMsg ++ k)
          else
            match buildSchema rows with
            | Except.ok m => SchemaResult.map m
            | Except.error k => SchemaResult.errorDict (schemaExcMsg ++ k)

/-- `get_supabase_schema_via_rest` (agent.py lines 227-273): try the
`get_table_schema` RPC first; any exception or falsy data inside that inner
try block falls through to the SQL fallback. -/
def get_supabase_schema_via_rest (ora : Oracle) : SchemaResult :=
  match ora (DBCall.rpc (lc ("get_table_schema")) Option.none) with
  | Except.error _ => schemaFallback ora
  | Except.ok r =>
      match r.data with
      | Option.none => schemaFallback ora
      | some rows =>
          if rows.isEmpty then schemaFallback ora
          else
            match buildSchema rows with
            | Except.ok m => SchemaResult.map m
            | Except.error _ => schemaFallback ora

/-- Python `s.replace(pat, repl)` for a non-empty pattern: replace every
non-overlapping occurrence, scanning left to right. -/
def pyReplace (pat repl : List Char) (s : List Char) : List Char :=
  match s with
  | [] => []
  | c :: rest =>
      if pat.isPrefixOf (c :: rest) then
        repl ++ pyReplace pat repl (rest.drop (pat.length - 1))
      else c :: pyReplace pat repl rest
termination_by s.length
decreasing_by
  · simp only [List.length_drop, List.length_cons]
    omega
  · simp only [List.length_cons]
    omega

/-- The markdown-fence cleanup of the Gemini reply (agent.py line 577):
remove occurrences of the sql fence and of bare fences, then strip. -/
def cleanGeminiText (t : List Char) : List Char :=
  pyStripWs (pyReplace (lc ("```")) [] (pyReplace (lc ("```sql")) [] t))

/-- The four alternatives of `(SELECT|INSERT|UPDATE|DELETE)`, lower-case. -/
def sqlKeywords : List (List Char) :=
  [lc ("select"), lc ("insert"), lc ("update"), lc ("delete")]

/-- Does one of the SQL keywords match case-insensitively at the front of
`s`?  (The four alternatives start with distinct letters, so at most one
can.) -/
def keywordHereB (s : List Char) : Bool := sqlKeywords.any (fun k => (litCI k s).isSome)

/-- `re.search(r'(SELECT|INSERT|UPDATE|DELETE).*', text, re.IGNORECASE |
re.DOTALL)` (agent.py line 580): the suffix of `text` from the leftmost
keyword occurrence (with DOTALL the match then runs to the end). -/
def findSqlStart : List Char → Option (List Char)
  | [] => Option.none
  | c :: rest => if keywordHereB (c :: rest) then some (c :: rest) else findSqlStart rest

/-- SQL extraction from the cleaned reply text (agent.py lines 580-583). -/
def extractSqlFromText (t : List Char) : List Char :=
  match findSqlStart t with
  | some suf => pyStripWs suf
  | Option.none => pyStripWs t

/-- A parsed Gemini HTTP response: status code, the text of each candidate
(the source reads only the first), and the raw body used for the non-200
error object. -/
structure GeminiResponse where
  status : Nat
  candidates : List (List Char)
  body : List Char

/-- The response-handling tail of `nl_to_sql_gemini` (agent.py lines
571-587): on a 200 response with candidates return the extracted SQL
string, otherwise an error object. -/
def nl_to_sql_gemini_fromResponse (r : GeminiResponse) : Except (List Char) (List Char) :=
  if r.status = 200 then
    match r.candidates with
    | [] => Except.error (lc ("No candidates returned by Gemini."))
    | t :: _ => Except.ok (extractSqlFromText (cleanGeminiText t))
  else Except.error r.body

/-- Does a SQL keyword start at offset `i` of `t`? -/
def keywordAtB (t : List Char) (i : Nat) : Bool := keywordHereB (t.drop i)

/-- The claim's description of the extraction, stated independently of the
scanning matcher: take the smallest offset at which a keyword starts and
return the trimmed suffix from there, or the whole (already stripped)
cleaned text when there is none. -/
def claimedSqlText (t : List Char) : List Char :=
  match (List.range t.length).find? (fun i => keywordAtB t i) with
  | some i => pyStripWs (t.drop i)
  | Option.none => pyStripWs t

/-- The claim's description of the whole response handling. -/
def claimed_nl_to_sql (r : GeminiResponse) : Except (List Char) (List Char) :=
  if r.status = 200 then
    match r.candidates with
    | [] => Except.error (lc ("No candidates returned by Gemini."))
    | t :: _ => Except.ok (claimedSqlText (cleanGeminiText t))
  else Except.error r.body

/-- The receipt-amount regex `\$?\s?([\d,]+\.?\d*)` (agent.py line 1014,
image.py line 57), as the group of its first (leftmost) `re.search` match.
A match can only start zero, one or two characters before a `[\d,]`
character (consuming an optional dollar and an optional whitespace), so the
leftmost match exists iff the string has a digit-or-comma character, and
its group always starts at the first such character: the maximal `[\d,]`
run there, then greedily an optional dot followed by the maximal digit
run. -/
def firstAmountGroup : List Char → Option (List Char)
  | [] => Option.none
  | c :: rest =>
      if isDigitChar c || c = ',' then
        let run := (c :: rest).takeWhile (fun d => isDigitChar d || d = ',')
        let after := (c :: rest).dropWhile (fun d => isDigitChar d || d = ',')
        match after with
        | d :: r2 =>
            if d = '.' then some (run ++ ['.'] ++ r2.takeWhile isDigitChar)
            else some run
        | [] => some run
      else firstAmountGroup rest

/-- The cleanup applied to the matched group (agent.py lines 1017-1019,
image.py lines 60-62): remove commas (the group cannot contain a dollar
sign), then keep only digits and dots. -/
def cleanAmount (g : List Char) : List Char :=
  ((g.filter (fun c => c ≠ ',')).filter (fun c => isDigitChar c || c = '.'))

/-- The reply-text processing shared by both copies of
`extract_amount_from_receipt`: the first regex match cleaned and fed to
`float(...)`; `none` marks `ValueError` (cleaned string empty or a lone
dot). -/
def amountFromText (t : List Char) : Option (Option ℚ) :=
  match firstAmountGroup t with
  | Option.none => some Option.none
  | some g =>
      match pyFloatParse (cleanAmount g) with
      | some q => some (some q)
      | Option.none => Option.none

/-- How evaluating
`response.json()["candidates"][0]["content"]["parts"][0]["text"]` on a 200
response can fail: the body is not JSON (`json.JSONDecodeError` from
`response.json()`), an indexed list is empty (`IndexError`, e.g.
`"candidates": []`), or a dict lacks the expected key (`KeyError`). -/
inductive VisionErr where
  | jsonErr
  | idxErr
  | keyErr
deriving DecidableEq

/-- The exceptions image.py's copy can raise past its `except KeyError`. -/
inductive PyExc where
  | jsonDecodeError
  | indexError
  | valueError
deriving DecidableEq

/-- agent.py's `extract_amount_from_receipt` on a parsed vision response
(lines 1008-1032): the inner `except KeyError` and the outer catch-all
handler together turn every failure — a body that fails to parse in any of
the three ways, or the `ValueError` of `float` on an unparseable cleaned
match — into `None`. -/
def extract_amount_from_receipt_agent (status : Nat)
    (body : Except VisionErr (List Char)) : Option ℚ :=
  if status = 200 then
    match body with
    | Except.error _ => Option.none
    | Except.ok t =>
        match amountFromText t with
        | some r => r
        | Option.none => Option.none
  else Option.none

/-- image.py's `extract_amount_from_receipt` on a parsed vision response
(lines 51-72): only `KeyError` is caught, so a `JSONDecodeError` or
`IndexError` of the body lookup and the `ValueError` of `float` all escape
(`Except.error`). -/
def extract_amount_from_receipt_image (status : Nat)
    (body : Except VisionErr (List Char)) : Except PyExc (Option ℚ) :=
  if status = 200 then
    match body with
    | Except.error VisionErr.jsonErr => Except.error PyExc.jsonDecodeError
    | Except.error VisionErr.idxErr => Except.error PyExc.indexError
    | Except.error VisionErr.keyErr => Except.ok Option.none
    | Except.ok t =>
        match amountFromText t with
        | some r => Except.ok r
        | Option.none => Except.error PyExc.valueError
  else Except.ok Option.none

/-- The Supabase project URL (default of agent.py line 197, hard-coded in
image.py line 7). -/
def supabaseUrl : List Char := lc ("https://advfymskrwzncvmlgrxz.supabase.co")

/-- The table receiving receipt records. -/
def rrTable : List Char := lc ("refund_requests")

/-- The two-field receipt record `{'image_url': ..., 'amount': ...}`
(agent.py lines 1056-1059 and 1176-1179, image.py lines 104-107). -/
def twoFieldData (url : List Char) (a : ℚ) : List (List Char × PyVal) :=
  [(lc ("image_url"), PyVal.str url), (lc ("amount"), PyVal.float a)]

/-- The three-field record of the batch processor's insert fallback
(agent.py lines 1225-1229), which also carries the explicit id. -/
def threeFieldData (i : Nat) (url : List Char) (a : ℚ) : List (List Char × PyVal) :=
  [(lc ("id"), PyVal.int i), (lc ("image_url"), PyVal.str url),
   (lc ("amount"), PyVal.float a)]

/-- Per-item result of `process_receipt_images`. -/
inductive ReceiptEntry where
  | extractionFailed (url : List Char)
  | success (url : List Char) (amount : ℚ)
  | dbSaveFailed (url : List Char) (amount : ℚ)
deriving DecidableEq

/-- `process_receipt_images` (agent.py lines 1034-1100), with the vision
extraction abstracted as `extract` (agent.py's copy never raises) and the
Supabase client as `ora`; returns the per-item entries and the
database-client calls made. -/
def receiptStep (ora : Oracle) (extract : List Char → Option ℚ)
    (acc : List ReceiptEntry × List DBCall) (url : List Char) :
    List ReceiptEntry × List DBCall :=
  match extract url with
  | Option.none => (acc.1 ++ [ReceiptEntry.extractionFailed url], acc.2)
  | some a =>
      let c := DBCall.insert rrTable (twoFieldData url a)
      match ora c with
      | Except.error _ => (acc.1 ++ [ReceiptEntry.dbSaveFailed url a], acc.2 ++ [c])
      | Except.ok resp =>
          if dataTruthy resp then (acc.1 ++ [ReceiptEntry.success url a], acc.2 ++ [c])
          else (acc.1 ++ [ReceiptEntry.dbSaveFailed url a], acc.2 ++ [c])

def process_receipt_images (ora : Oracle) (extract : List Char → Option ℚ)
    (urls : List (List Char)) : List ReceiptEntry × List DBCall :=
  urls.foldl (receiptStep ora extract) ([], [])

/-- The fixed file list of image.py's `populate_refund_requests_from_bucket`
(lines 78-82). -/
def imageFiles : List (List Char) :=
  [lc ("refund_req1.png"), lc ("refund_req2.png"), lc ("refund_req3.png")]

/-- The public storage URL of a bucket file (image.py line 92). -/
def bucketUrl (f : List Char) : List Char :=
  supabaseUrl ++ lc ("/storage/v1/object/public/receipts/") ++ f

/-- image.py's `populate_refund_requests_from_bucket` (lines 75-110): for
each fixed file, extract the amount (this copy of the extractor can raise,
aborting the whole function — `Except.error` from `extract`) and insert the
two-field record, insert failures being caught per item.  Returns the calls
made and whether the loop completed. -/
def populateStep (ora : Oracle) (extract : List Char → Except Unit (Option ℚ))
    (acc : List DBCall × Bool) (f : List Char) : List DBCall × Bool :=
  if acc.2 then
    match extract (bucketUrl f) with
    | Except.error _ => (acc.1, false)
    | Except.ok Option.none => acc
    | Except.ok (some a) =>
        let c := DBCall.insert rrTable (twoFieldData (bucketUrl f) a)
        match ora c with
        | Except.error _ => (acc.1 ++ [c], true)
        | Except.ok _ => (acc.1 ++ [c], true)
  else acc

def populate_refund_requests_from_bucket (ora : Oracle)
    (extract : List Char → Except Unit (Option ℚ)) : List DBCall × Bool :=
  imageFiles.foldl (populateStep ora extract) ([], true)

/-- Decimal digits of a natural number. -/
def natDigits (n : Nat) : List Char := Nat.toDigits 10 n

/-- The primary storage URL of batch receipt `i` (agent.py lines
1138-1147). -/
def primaryUrl (i : Nat) : List Char :=
  supabaseUrl ++ lc ("/storage/v1/object/public/receipts/refund_req") ++ natDigits i
    ++ lc (".png")

/-- The alternative render URL tried on extraction failure (agent.py line
1155). -/
def altUrl (i : Nat) : List Char :=
  supabaseUrl ++ lc ("/storage/v1/render/image/public/receipts/refund_req") ++ natDigits i
    ++ lc (".png")

/-- The SQL-fallback UPDATE text (agent.py lines 1191 and 1252); `fmt`
abstracts Python's `str` on the float amount. -/
def updSqlQuery (fmt : ℚ → List Char) (i : Nat) (url : List Char) (a : ℚ) : List Char :=
  lc ("UPDATE refund_requests SET image_url = ") ++ [sqc] ++ url ++ [sqc]
    ++ lc (", amount = ") ++ fmt a ++ lc (" WHERE id = ") ++ natDigits i

/-- The row-existence check SQL (agent.py line 1211). -/
def checkSql (i : Nat) : List Char :=
  lc ("SELECT id FROM refund_requests WHERE id = ") ++ natDigits i

/-- Is a result the `{"error": ...}` dict? -/
def isErrDict (r : SqlResult) : Bool :=
  match r with
  | SqlResult.errorDict _ => true
  | _ => false

/-- The message of an error dict (empty otherwise). -/
def errMsgOf (r : SqlResult) : List Char :=
  match r with
  | SqlResult.errorDict m => m
  | _ => []

/-- Per-item result of `fetch_and_process_storage_receipts`. -/
inductive StorageEntry where
  | extractionFailed (i : Nat)
  | success (i : Nat) (amount : ℚ)
  | likelySuccess (i : Nat) (amount : ℚ)
  | successInsert (i : Nat) (amount : ℚ)
  | dbUpdateFailed (i : Nat) (amount : ℚ)
  | successViaSql (i : Nat) (amount : ℚ)
  | errorEntry (i : Nat) (msg : List Char)
deriving DecidableEq

/-- The `except table_error` handler of the batch processor (agent.py lines
1249-1265): retry through the SQL fallback; an error dict there becomes the
raised exception caught by the per-row handler. -/
def storageTableErrHandler (ora : Oracle) (fmt : ℚ → List Char) (i : Nat)
    (url : List Char) (a : ℚ) : StorageEntry × List DBCall :=
  let r := execute_sql_query ora (updSqlQuery fmt i url a)
  if isErrDict r.1 then
    (StorageEntry.errorEntry i (lc ("SQL fallback failed: ") ++ errMsgOf r.1), r.2)
  else (StorageEntry.successViaSql i a, r.2)

/-- The data check and insert fallback of the batch processor (agent.py
lines 1199-1248): a truthy update response means success; otherwise check
whether the row exists and, when it does not, insert the three-field record
carrying the explicit id. -/
def storageDataCheck (ora : Oracle) (fmt : ℚ → List Char) (i : Nat) (url : List Char)
    (a : ℚ) (resp : DBResponse) (calls : List DBCall) : StorageEntry × List DBCall :=
  if dataTruthy resp then (StorageEntry.success i a, calls)
  else
    let chk := execute_sql_query ora (checkSql i)
    let calls2 := calls ++ chk.2
    let rowExists :=
      match chk.1 with
      | SqlResult.rows rows => !rows.isEmpty
      | _ => false
    if rowExists then (StorageEntry.likelySuccess i a, calls2)
    else
      let c2 := DBCall.insert rrTable (threeFieldData i url a)
      match ora c2 with
      | Except.error _ =>
          let h := storageTableErrHandler ora fmt i url a
          (h.1, calls2 ++ [c2] ++ h.2)
      | Except.ok iresp =>
          if dataTruthy iresp then (StorageEntry.successInsert i a, calls2 ++ [c2])
          else (StorageEntry.dbUpdateFailed i a, calls2 ++ [c2])

/-- One row of the batch processor after a successful extraction (agent.py
lines 1174-1265): structured update, error fallback through SQL, then the
data check. -/
def storageRowCore (ora : Oracle) (fmt : ℚ → List Char) (i : Nat) (url : List Char)
    (a : ℚ) : StorageEntry × List DBCall :=
  let c1 := DBCall.update rrTable (twoFieldData url a) (lc ("id")) (PyVal.int i)
  match ora c1 with
  | Except.error _ =>
      let h := storageTableErrHandler ora fmt i url a
      (h.1, c1 :: h.2)
  | Except.ok resp =>
      match resp.error with
      | some _ =>
          let r := execute_sql_query ora (updSqlQuery fmt i url a)
          if isErrDict r.1 then
            let h := storageTableErrHandler ora fmt i url a
            (h.1, c1 :: r.2 ++ h.2)
          else storageDataCheck ora fmt i url a resp (c1 :: r.2)
      | Option.none => storageDataCheck ora fmt i url a resp [c1]

/-- `fetch_and_process_storage_receipts` (agent.py lines 1132-1288): for
each id in `range(start_num, end_num + 1)`, extract the amount from the
primary URL, retry with the alternative URL, and persist through
`storageRowCore`; extraction comes from the agent copy of the extractor
(abstracted as `extract`), which never raises. -/
def storageStep (ora : Oracle) (fmt : ℚ → List Char) (extract : List Char → Option ℚ)
    (acc : List StorageEntry × List DBCall) (i : Nat) : List StorageEntry × List DBCall :=
  match extract (primaryUrl i) with
  | some a =>
      let r := storageRowCore ora fmt i (primaryUrl i) a
      (acc.1 ++ [r.1], acc.2 ++ r.2)
  | Option.none =>
      match extract (altUrl i) with
      | some a =>
          let r := storageRowCore ora fmt i (altUrl i) a
          (acc.1 ++ [r.1], acc.2 ++ r.2)
      | Option.none => (acc.1 ++ [StorageEntry.extractionFailed i], acc.2)

def fetch_and_process_storage_receipts (ora : Oracle) (fmt : ℚ → List Char)
    (extract : List Char → Option ℚ) (startN endN : Nat) :
    List StorageEntry × List DBCall :=
  (List.range' startN (endN + 1 - startN)).foldl (storageStep ora fmt extract) ([], [])

/-- Scan `s` for a position where one of the non-empty alternatives `alts`
matches (case-insensitively) and the continuation `k` accepts the rest; the
scan models a regex `.*?` connector and therefore cannot cross a newline. -/
def scanSeq (alts : List (List Char)) (k : List Char → Bool) : List Char → Bool
  | [] =>
      alts.any (fun a =>
        match litCI a [] with
        | some r => k r
        | Option.none => false)
  | c :: tail =>
      (alts.any (fun a =>
        match litCI a (c :: tail) with
        | some r => k r
        | Option.none => false))
      || (if c = '\n' then false else scanSeq alts k tail)

/-- Like `scanSeq`, but for the initial position scan of `re.search`, which
may cross newlines. -/
def searchSeq (alts : List (List Char)) (k : List Char → Bool) : List Char → Bool
  | [] =>
      alts.any (fun a =>
        match litCI a [] with
        | some r => k r
        | Option.none => false)
  | c :: tail =>
      (alts.any (fun a =>
        match litCI a (c :: tail) with
        | some r => k r
        | Option.none => false))
      || searchSeq alts k tail

/-- `re.search(r"(get|extract|process).*?(image|storage|receipt).*?(update|set).*?row",
user_input.lower())` as a Boolean (agent.py line 1351). -/
def storagePat1B (lu : List Char) : Bool :=
  searchSeq [lc ("get"), lc ("extract"), lc ("process")]
    (scanSeq [lc ("image"), lc ("storage"), lc ("receipt")]
      (scanSeq [lc ("update"), lc ("set")]
        (scanSeq [lc ("row")] (fun _ => true))))
    lu

/-- Generic first-position regex search: apply `f` at every suffix, left to
right, returning its first `some`. -/
def searchO {α : Type} (f : List Char → Option α) : List Char → Option α
  | [] => f []
  | c :: tail =>
      match f (c :: tail) with
      | some a => some a
      | Option.none => searchO f tail

/-- A non-empty digit run at the front of `s`. -/
def digits1 (s : List Char) : Option (List Char) :=
  match s.takeWhile isDigitChar with
  | [] => Option.none
  | d => some d

/-- `refund_req(\d+)\.png` matched at the current position (used on the
lowercased input for the Boolean check of agent.py line 1352 and on the raw
input for the group extraction of line 1363). -/
def storageStartAt (s : List Char) : Option (List Char) :=
  if (lc ("refund_req")).isPrefixOf s then
    let r := s.drop 10
    (digits1 r).bind fun d =>
      if (lc (".png")).isPrefixOf (r.dropWhile isDigitChar) then some d else Option.none
  else Option.none

/-- `refund_req(\d+)` matched at the current position (agent.py line
1415). -/
def storageStartBareAt (s : List Char) : Option (List Char) :=
  if (lc ("refund_req")).isPrefixOf s then digits1 (s.drop 10)
  else Option.none

/-- The tail `\s+(?:refund_req)?(\d+)` of the end-number pattern: a
whitespace run, a greedy optional `refund_req`, then the digit group. -/
def endNumTail (r : List Char) : Option (List Char) :=
  (wsRun1 r).bind fun r2 =>
    match
      (if (lc ("refund_req")).isPrefixOf r2 then digits1 (r2.drop 10) else Option.none)
    with
    | some d => some d
    | Option.none => digits1 r2

/-- `(?:to|through|till)\s+(?:refund_req)?(\d+)` matched at the current
position (agent.py lines 1368 and 1420); the three alternatives are tried
in order. -/
def endNumAt (s : List Char) : Option (List Char) :=
  match (litCI (lc ("to")) s).bind endNumTail with
  | some d => some d
  | Option.none =>
      match (litCI (lc ("through")) s).bind endNumTail with
      | some d => some d
      | Option.none => (litCI (lc ("till")) s).bind endNumTail

/-- The SQL query issued by the audio route (agent.py lines 1335 and
1396). -/
def audioSqlQuery : List Char :=
  lc ("SELECT id, audio_url FROM refund_requests WHERE audio_url IS NOT NULL")

/-- The audio terms of the primary intent check (agent.py line 1331). -/
def audioTerms : List (List Char) :=
  [lc ("audio"), lc ("refund_aud"), lc ("refund audio")]

/-- The summary terms of the primary intent check (agent.py line 1331). -/
def summaryTerms : List (List Char) :=
  [lc ("summary"), lc ("summarize"), lc ("summarization"),
   lc ("what is being said"), lc ("content"), lc ("transcript")]

/-- The primary audio-summarisation check (agent.py line 1331). -/
def audioCondB (u : List Char) : Bool :=
  audioTerms.any (fun t => containsB t (asciiLower u))
    && summaryTerms.any (fun t => containsB t (asciiLower u))

/-- The noun terms of the storage check (agent.py line 1346). -/
def storageNouns : List (List Char) :=
  [lc ("storage"), lc ("image"), lc ("receipt"), lc ("refund_req"), lc ("png")]

/-- The verb disjunction of the storage check (agent.py lines 1347-1348). -/
def storageVerbB (lu : List Char) : Bool :=
  containsB (lc ("update")) lu || containsB (lc ("extract")) lu
    || containsB (lc ("process")) lu || containsB (lc ("get info")) lu
    || containsB (lc ("read")) lu

/-- The full storage-processing check (agent.py lines 1346-1354). -/
def storageCondB (u : List Char) : Bool :=
  let lu := asciiLower u
  storageNouns.any (fun t => containsB t lu) && storageVerbB lu
    && (storagePat1B lu || (searchO storageStartAt lu).isSome)

/-- The start number of the storage route (agent.py lines 1360-1365,
searched on the raw input). -/
def storageStartNum (u : List Char) : Nat :=
  match searchO storageStartAt u with
  | some d => digitsVal d
  | Option.none => 1

/-- The end number of the storage route (agent.py lines 1368-1370). -/
def storageEndNum (u : List Char) : Nat :=
  match searchO endNumAt u with
  | some d => digitsVal d
  | Option.none => 10

/-- The database-operation keyword list (agent.py lines 1376-1378). -/
def dbKeywords : List (List Char) :=
  [lc ("insert"), lc ("update"), lc ("delete"), lc ("select"), lc ("add"),
   lc ("modify"), lc ("change"), lc ("remove"), lc ("get"), lc ("show"),
   lc ("list"), lc ("query"), lc ("find"), lc ("fetch"), lc ("set"),
   lc ("employee"), lc ("refund")]

/-- How many of the keywords occur in the lowercased input (agent.py line
1380). -/
def dbKeywordCount (u : List Char) : Nat :=
  (dbKeywords.filter (fun k => containsB k (asciiLower u))).length

/-- The media phrases excluding the generic database route (agent.py lines
1385-1386). -/
def mediaPhrases : List (List Char) :=
  [lc ("process audio"), lc ("transcribe"), lc ("summarize audio"),
   lc ("extract from receipt"), lc ("analyze image")]

/-- The generic database-operation check (agent.py line 1384), with the
audio and storage flags already false at this point of the chain. -/
def dbCondB (u : List Char) : Bool :=
  decide (dbKeywordCount u ≥ 2)
    && !(mediaPhrases.any (fun t => containsB t (asciiLower u)))

/-- The legacy audio check (agent.py line 1393). -/
def legacyAudioCondB (u : List Char) : Bool :=
  let lu := asciiLower u
  (containsB (lc ("audio")) lu || containsB (lc ("refund_aud")) lu)
    && ([lc ("summary"), lc ("summarize"), lc ("transcribe"), lc ("transcript"),
         lc ("what is being said")].any (fun t => containsB t lu))

/-- The exact-task storage check (agent.py line 1406). -/
def exactTaskCondB (u : List Char) : Bool :=
  let lu := asciiLower u
  containsB (lc ("get all the urls from the storage")) lu
    && containsB (lc ("refund_req")) lu
    && containsB (lc ("update the respective rows")) lu

/-- The outer legacy storage-command check (agent.py line 1410). -/
def storageCmdOuterB (u : List Char) : Bool :=
  [lc ("process all receipts"), lc ("update refund rows"),
   lc ("process storage")].any (fun t => containsB t (asciiLower u))

/-- The inner legacy storage-command check on the raw input (agent.py line
1411). -/
def storageCmdInnerB (u : List Char) : Bool :=
  containsB (lc ("refund_req")) u
    && (containsB (lc ("image")) u || containsB (lc ("receipt")) u)

/-- The start number of the legacy storage command (agent.py lines
1413-1417). -/
def storageCmdStartNum (u : List Char) : Nat :=
  match searchO storageStartBareAt u with
  | some d => digitsVal d
  | Option.none => 1

/-- Where `handle_request` dispatches a user input (agent.py lines
1327-1425); the trailing schema-fetch / NL→SQL processing of lines
1427-1605 is abstracted as the `regular` route. -/
inductive Route where
  | audio (sqlQuery : List Char)
  | storage (startN endN : Nat)
  | db
  | legacyAudio (sqlQuery : List Char)
  | storageExact (startN endN : Nat)
  | storageCmd (startN endN : Nat)
  | regular
deriving DecidableEq

/-- The routing chain of `handle_request`, in source order: the audio
summarisation check comes first, before the storage check, the generic
database check and all legacy checks. -/
def handle_request_route (u : List Char) : Route :=
  if audioCondB u then Route.audio audioSqlQuery
  else if storageCondB u then Route.storage (storageStartNum u) (storageEndNum u)
  else if dbCondB u then Route.db
  else if legacyAudioCondB u then Route.legacyAudio audioSqlQuery
  else if exactTaskCondB u then Route.storageExact 1 10
  else if storageCmdOuterB u then
    if storageCmdInnerB u then
      Route.storageCmd (storageCmdStartNum u) (storageEndNum u)
    else Route.regular
  else Route.regular

/-- A filesystem event of the audio pipeline. -/
inductive FsEvent where
  | download (f : List Char)
  | unlinked (f : List Char)
  | cleanupFiles (fs : List (List Char))
  | cleanupDir (d : List Char)
deriving DecidableEq

instance exceptDecEq {ε α : Type} [DecidableEq ε] [DecidableEq α] :
    DecidableEq (Except ε α)
  | Except.ok x, Except.ok y =>
      if h : x = y then Decidable.isTrue (by rw [h])
      else Decidable.isFalse (fun hc => h (Except.ok.inj hc))
  | Except.ok _, Except.error _ => Decidable.isFalse (fun hc => Except.noConfusion hc)
  | Except.error _, Except.ok _ => Decidable.isFalse (fun hc => Except.noConfusion hc)
  | Except.error x, Except.error y =>
      if h : x = y then Decidable.isTrue (by rw [h])
      else Decidable.isFalse (fun hc => h (Except.error.inj hc))

/-- The externally determined outcome of one audio URL in
`process_audio_urls` (agent.py lines 866-929): whether the download
produced a local file, what the per-item body did (an uncaught-inside
exception message, or the transcription and summary strings), and whether
the eager unlink finds the file still present and succeeds. -/
structure UrlOutcome where
  url : List Char
  dl : Option (List Char)
  body : Except (List Char) (List Char × List Char)
  fileExists : Bool
  unlinkOk : Bool
deriving DecidableEq

/-- Does the per-item flow reach the eager cleanup block (agent.py lines
920-929)?  The download-failed and transcription-failed paths `continue`
past it (lines 883 and 897); the per-item exception handler falls through
to it. -/
def eagerReached (o : UrlOutcome) : Bool :=
  o.dl.isSome
    && (match o.body with
        | Except.ok p => !((lc ("Error")).isPrefixOf p.1)
        | Except.error _ => true)

/-- Is the downloaded file actually unlinked eagerly (reached the block,
still exists, unlink succeeded)? -/
def eagerDone (o : UrlOutcome) : Bool := eagerReached o && o.fileExists && o.unlinkOk

/-- The filesystem events of one item, in order. -/
def itemEvents (o : UrlOutcome) : List FsEvent :=
  (match o.dl with
   | some f => [FsEvent.download f]
   | Option.none => []) ++
  (match o.dl with
   | some f => if eagerDone o then [FsEvent.unlinked f] else []
   | Option.none => [])

/-- The effect of one item on `processed_files`: the downloaded file is
appended (line 873) and, on a successful eager unlink, removed again
(Python `list.remove`, the first occurrence — line 927). -/
def stepProcessed (o : UrlOutcome) (p : List (List Char)) : List (List Char) :=
  match o.dl with
  | some f => if eagerDone o then (p ++ [f]).erase f else p ++ [f]
  | Option.none => p

/-- The processing loop of `process_audio_urls` (agent.py lines 866-929):
the events emitted and the final `processed_files`. -/
def audioLoopGo : List UrlOutcome → List (List Char) → List FsEvent × List (List Char)
  | [], p => ([], p)
  | o :: rest, p =>
      let r := audioLoopGo rest (stepProcessed o p)
      (itemEvents o ++ r.1, r.2)

/-- The per-item result entry of `process_audio_urls`. -/
inductive AudioEntry where
  | downloadFailed (url : List Char)
  | transcriptionFailed (url tr : List Char)
  | errorE (url msg : List Char)
  | success (url tr sm : List Char)
deriving DecidableEq

/-- The result entry of one item (agent.py lines 877-918). -/
def audioEntry (o : UrlOutcome) : AudioEntry :=
  match o.dl with
  | Option.none => AudioEntry.downloadFailed o.url
  | some _ =>
      match o.body with
      | Except.error m => AudioEntry.errorE o.url m
      | Except.ok p =>
          if (lc ("Error")).isPrefixOf p.1 then AudioEntry.transcriptionFailed o.url p.1
          else AudioEntry.success o.url p.1 p.2

/-- Result of `process_audio_urls`: the per-item entries or an early
`{"error": ...}` dict. -/
inductive AudioResult where
  | entries (es : List AudioEntry)
  | errorDict (msg : List Char)
deriving DecidableEq

/-- `process_audio_urls` (agent.py lines 849-938): FFmpeg check, temp-dir
preparation (`ensure_temp_dir` first cleans an already existing directory),
the per-URL loop, and the `finally` block that hands the remaining
`processed_files` (when non-empty) and the temp directory to
`cleanup_temp_files`. -/
def process_audio_urls (ffmpegOk tempDirOk dirExisted : Bool) (td : List Char)
    (outs : List UrlOutcome) : AudioResult × List FsEvent :=
  if !ffmpegOk then
    (AudioResult.errorDict (lc ("Failed to set up FFmpeg for audio processing")), [])
  else
    let pre := if dirExisted then [FsEvent.cleanupDir td] else []
    if !tempDirOk then
      (AudioResult.errorDict (lc ("Failed to create temporary directory")), pre)
    else
      let r := audioLoopGo outs []
      (AudioResult.entries (outs.map audioEntry),
       pre ++ r.1
         ++ (if r.2.isEmpty then [] else [FsEvent.cleanupFiles r.2])
         ++ [FsEvent.cleanupDir td])

/-- All files the loop downloads. -/
def downloadedFiles (outs : List UrlOutcome) : List (List Char) :=
  outs.filterMap (fun o => o.dl)

/-- The claim-level description of what remains for the final cleanup: the
downloaded files whose eager unlink did not happen or did not succeed. -/
def claimLeftover (outs : List UrlOutcome) : List (List Char) :=
  outs.filterMap (fun o =>
    match o.dl with
    | some f => if eagerDone o then Option.none else some f
    | Option.none => Option.none)

/-- Is a call an RPC passthrough call? -/
def isRpcCall (c : DBCall) : Prop := ∃ f a, c = DBCall.rpc f a

lemma rpcFallback_observed (ora : Oracle) (nq : List Char) :
    (∃ rest, (rpcFallback ora nq).2 = DBCall.rpc (lc ("run_sql_query")) (some nq) :: rest)
    ∧ ∀ c ∈ (rpcFallback ora nq).2, isRpcCall c := by
  unfold rpcFallback
  rcases h1 : ora (DBCall.rpc (lc ("run_sql_query")) (some nq)) with e | r
  · rcases h2 : ora (DBCall.rpc (lc ("run_sql")) (some nq)) with e2 | r2
    · simp only [h1, h2]
      refine ⟨⟨[DBCall.rpc (lc ("run_sql")) (some nq)], rfl⟩, ?_⟩
      intro c hc
      simp only [List.mem_cons, List.not_mem_nil, or_false] at hc
      rcases hc with h | h
      · exact ⟨_, _, h⟩
      · exact ⟨_, _, h⟩
    · simp only [h1, h2]
      refine ⟨⟨[DBCall.rpc (lc ("run_sql")) (some nq)], rfl⟩, ?_⟩
      intro c hc
      simp only [List.mem_cons, List.not_mem_nil, or_false] at hc
      rcases hc with h | h
      · exact ⟨_, _, h⟩
      · exact ⟨_, _, h⟩
  · simp only [h1]
    refine ⟨⟨[], rfl⟩, ?_⟩
    intro c hc
    simp only [List.mem_cons, List.not_mem_nil, or_false] at hc
    exact ⟨_, _, hc⟩

lemma updateBranch_observed (ora : Oracle) (t s c w : List Char) :
    ∃ d v, (updateBranch ora t s c w).2 = [DBCall.update t d c v] := by
  refine ⟨buildSetData s, coerceWhere (pyStripWs w), ?_⟩
  simp only [updateBranch]
  rcases h2 : ora (DBCall.update t (buildSetData s) c (coerceWhere (pyStripWs w)))
    with e | r
  · simp only [h2]
  · simp only [h2]

lemma deleteBranch_observed (ora : Oracle) (t c w : List Char) :
    ∃ v, (deleteBranch ora t c w).2 = [DBCall.delete t c v] := by
  refine ⟨coerceWhere (pyStripWs w), ?_⟩
  simp only [deleteBranch]
  rcases h2 : ora (DBCall.delete t c (coerceWhere (pyStripWs w))) with e | r
  · simp only [h2]
  · simp only [h2]

lemma takeWhile_all {p : Char → Bool} {l : List Char} (h : ∀ c ∈ l, p c = true) :
    l.takeWhile p = l := by
  induction l with
  | nil => rfl
  | cons c rest ih =>
      rw [List.takeWhile_cons, if_pos (h c (List.mem_cons_self c rest))]
      exact congrArg (c :: ·) (ih (fun d hd => h d (List.mem_cons_of_mem c hd)))

lemma dropWhile_all {p : Char → Bool} {l : List Char} (h : ∀ c ∈ l, p c = true) :
    l.dropWhile p = [] := by
  induction l with
  | nil => rfl
  | cons c rest ih =>
      rw [List.dropWhile_cons, if_pos (h c (List.mem_cons_self c rest))]
      exact ih (fun d hd => h d (List.mem_cons_of_mem c hd))

lemma dropWhile_eq_self_of_all {p : Char → Bool} {l : List Char}
    (h : ∀ c ∈ l, p c = false) : l.dropWhile p = l := by
  cases l with
  | nil => rfl
  | cons c rest =>
      rw [List.dropWhile_cons, if_neg]
      intro hc
      rw [h c (List.mem_cons_self c rest)] at hc
      exact Bool.false_ne_true hc

lemma mem_of_getLast?_eq {l : List Char} {c : Char} (h : l.getLast? = some c) : c ∈ l := by
  rcases List.mem_getLast?_eq_getLast (show c ∈ l.getLast? by rw [h]; rfl) with ⟨hne, heq⟩
  rw [heq]
  exact List.getLast_mem hne

lemma rstripP_eq_self {p : Char → Bool} {l : List Char}
    (h : ∀ c, l.getLast? = some c → p c = false) : rstripP p l = l := by
  unfold rstripP
  cases hr : l.reverse with
  | nil =>
      have hl : l = [] := List.reverse_eq_nil_iff.mp hr
      subst hl
      rfl
  | cons c rest =>
      have hlr : l = (c :: rest).reverse := by rw [← hr, List.reverse_reverse]
      have hc : l.getLast? = some c := by
        rw [hlr, List.getLast?_reverse]
        rfl
      rw [List.dropWhile_cons, if_neg]
      · exact hlr.symm
      · intro hct
        rw [h c hc] at hct
        exact Bool.false_ne_true hct

lemma space_not_word {c : Char} (h : pyIsSpace c = true) : isWordChar c = false := by
  unfold pyIsSpace at h
  simp only [Bool.or_eq_true, decide_eq_true_eq] at h
  rcases h with ((((h | h) | h) | h) | h) | h <;> subst h <;> decide

lemma word_not_space {c : Char} (h : isWordChar c = true) : pyIsSpace c = false := by
  cases hs : pyIsSpace c with
  | false => rfl
  | true =>
      rw [space_not_word hs] at h
      exact absurd h Bool.false_ne_true

lemma word_not_semi {c : Char} (h : isWordChar c = true) : decide (c = ';') = false := by
  cases hd : decide (c = ';') with
  | false => rfl
  | true =>
      have hcs : c = ';' := of_decide_eq_true hd
      subst hcs
      exact absurd h (by decide)

/-- C9: for every table name (a non-empty word), a `DELETE FROM <table>`
query with no WHERE clause is refused by `execute_sql_query` with the
safety error dict, and no database call is issued. -/
theorem c9_delete_no_where_refused (ora : Oracle) (t : List Char) (h1 : t ≠ [])
    (h2 : ∀ c ∈ t, isWordChar c = true) :
    execute_sql_query ora (lc ("DELETE FROM ") ++ t)
      = (SqlResult.errorDict deleteSafetyMsg, []) := by
  have hts : ∀ c ∈ t, pyIsSpace c = false := fun c hc => word_not_space (h2 c hc)
  have htw : t.dropWhile pyIsSpace = t := dropWhile_eq_self_of_all hts
  have hlastmem : ∀ c, (lc ("DELETE FROM ") ++ t).getLast? = some c → c ∈ t := by
    intro c hc
    rw [List.getLast?_append_of_ne_nil _ h1] at hc
    exact mem_of_getLast?_eq hc
  have hnorm : pyNormalize (lc ("DELETE FROM ") ++ t) = lc ("DELETE FROM ") ++ t := by
    unfold pyNormalize pyStripWs lstripP
    have he1 : (lc ("DELETE FROM ") ++ t).dropWhile pyIsSpace
        = lc ("DELETE FROM ") ++ t := by
      show List.dropWhile pyIsSpace ('D' :: (lc ("ELETE FROM ") ++ t))
        = lc ("DELETE FROM ") ++ t
      rw [List.dropWhile_cons, if_neg (by decide)]
      rfl
    rw [he1]
    have he2 : rstripP pyIsSpace (lc ("DELETE FROM ") ++ t) = lc ("DELETE FROM ") ++ t :=
      rstripP_eq_self (fun c hc => word_not_space (h2 c (hlastmem c hc)))
    rw [he2]
    exact rstripP_eq_self (fun c hc => word_not_semi (h2 c (hlastmem c hc)))
  have htake : t.takeWhile isWordChar = t := takeWhile_all h2
  have hdropw : t.dropWhile isWordChar = [] := dropWhile_all h2
  have hword : word1 t = some (t, []) := by
    unfold word1
    rw [htake, hdropw]
    cases t with
    | nil => exact absurd rfl h1
    | cons c r => rfl
  have hdm : deleteMatch (lc ("DELETE FROM ") ++ t) = some (t, Option.none) := by
    unfold deleteMatch
    have e1 : litCI (lc ("delete")) (lc ("DELETE FROM ") ++ t)
        = some (lc (" FROM ") ++ t) := rfl
    rw [e1, Option.some_bind]
    have e2 : wsRun1 (lc (" FROM ") ++ t) = some (lc ("FROM ") ++ t) := rfl
    rw [e2, Option.some_bind]
    have e3 : litCI (lc ("from")) (lc ("FROM ") ++ t) = some (lc (" ") ++ t) := rfl
    rw [e3, Option.some_bind]
    have e4 : wsRun1 (lc (" ") ++ t) = some t := by
      show some (t.dropWhile pyIsSpace) = some t
      rw [htw]
    rw [e4, Option.some_bind, hword, Option.map_some']
    rfl
  unfold execute_sql_query
  rw [hnorm]
  unfold execute_sql_query_core
  have hig : insertGuard (lc ("DELETE FROM ") ++ t) = false := rfl
  have hug : updateGuard (lc ("DELETE FROM ") ++ t) = false := rfl
  have hdg : deleteGuard (lc ("DELETE FROM ") ++ t) = true := rfl
  rw [if_neg (by rw [hig]; exact Bool.false_ne_true)]
  rw [if_neg (by rw [hug]; exact Bool.false_ne_true)]
  rw [if_pos hdg, hdm]

/-- Witness for C9: the hypotheses hold and the conclusion follows at the
concrete table name `employees`. -/
theorem c9_witness :
    (lc ("employees") ≠ [] ∧ (∀ c ∈ lc ("employees"), isWordChar c = true))
    ∧ execute_sql_query (fun _ => Except.ok ⟨Option.none, some []⟩)
        (lc ("DELETE FROM employees"))
      = (SqlResult.errorDict deleteSafetyMsg, []) := by
  refine ⟨⟨by decide, by decide⟩, ?_⟩
  exact c9_delete_no_where_refused (fun _ => Except.ok ⟨Option.none, some []⟩)
    (lc ("employees")) (by decide) (by decide)

/-- A database client that succeeds on every call with one data row. -/
def okOra : Oracle := fun _ => Except.ok ⟨Option.none, some [[(lc ("a"), PyVal.int 1)]]⟩

/-- A database client that raises on every call. -/
def failOra : Oracle := fun _ => Except.error (lc ("boom"))

/-- A database client that echoes the SQL text it receives back in a data
row (and succeeds on everything else). -/
def echoOra : Oracle := fun c =>
  match c with
  | DBCall.rpc _ (some s) => Except.ok ⟨Option.none, some [[(lc ("q"), PyVal.str s)]]⟩
  | _ => Except.ok ⟨Option.none, some []⟩

lemma rpcFallback_err (ora : Oracle) (hfail : ∀ c, ∃ e, ora c = Except.error e)
    (q : List Char) : ∃ m, (rpcFallback ora q).1 = SqlResult.errorDict m := by
  unfold rpcFallback
  obtain ⟨e1, h1⟩ := hfail (DBCall.rpc (lc ("run_sql_query")) (some q))
  obtain ⟨e2, h2⟩ := hfail (DBCall.rpc (lc ("run_sql")) (some q))
  refine ⟨lc ("Query failed: ") ++ e2, ?_⟩
  simp only [h1, h2]

lemma insertBranch_err (ora : Oracle) (hfail : ∀ c, ∃ e, ora c = Except.error e)
    (t cs vs : List Char) : ∃ m, (insertBranch ora t cs vs).1 = SqlResult.errorDict m := by
  by_cases hl : ((splitComma vs).map pyStripWs).length
      < ((splitComma cs).map pyStripWs).length
  · exact ⟨lc ("Query failed: list index out of range"),
      by simp only [insertBranch, if_pos hl]⟩
  · obtain ⟨e, he⟩ := hfail (DBCall.insert t
      (buildInsertData ((splitComma cs).map pyStripWs) ((splitComma vs).map pyStripWs)))
    exact ⟨lc ("Query failed: ") ++ e, by simp only [insertBranch, if_neg hl, he]⟩

lemma updateBranch_err (ora : Oracle) (hfail : ∀ c, ∃ e, ora c = Except.error e)
    (t s c w : List Char) : ∃ m, (updateBranch ora t s c w).1 = SqlResult.errorDict m := by
  obtain ⟨e, he⟩ := hfail (DBCall.update t (buildSetData s) c (coerceWhere (pyStripWs w)))
  exact ⟨lc ("Query failed: ") ++ e, by simp only [updateBranch, he]⟩

lemma deleteBranch_err (ora : Oracle) (hfail : ∀ c, ∃ e, ora c = Except.error e)
    (t c w : List Char) : ∃ m, (deleteBranch ora t c w).1 = SqlResult.errorDict m := by
  obtain ⟨e, he⟩ := hfail (DBCall.delete t c (coerceWhere (pyStripWs w)))
  exact ⟨lc ("Query failed: ") ++ e, by simp only [deleteBranch, he]⟩

/-- C3 (amended): `execute_sql_query` never raises, and when the database
client fails (raises) on every call it makes, the function returns an
`{"error": ...}` dict for every input query; `get_supabase_schema_via_rest`
likewise.  (A failed regex dispatch alone does not produce an error dict —
it falls back to the RPC passthrough, which may succeed; see the
counterexample.) -/
theorem c3_error_dict_amended (ora : Oracle)
    (hfail : ∀ c, ∃ e, ora c = Except.error e) (q : List Char) :
    (∃ m, (execute_sql_query ora q).1 = SqlResult.errorDict m)
    ∧ (∃ m2, get_supabase_schema_via_rest ora = SchemaResult.errorDict m2) := by
  constructor
  · show ∃ m, (execute_sql_query_core ora (pyNormalize q)).1 = SqlResult.errorDict m
    generalize pyNormalize q = nq
    unfold execute_sql_query_core
    cases h1 : insertGuard nq with
    | true =>
        simp only [h1]
        rcases hm : insertMatch nq with _ | ⟨t, cs, vs⟩
        · simp only [hm]
          exact rpcFallback_err ora hfail nq
        · simp only [hm]
          exact insertBranch_err ora hfail t cs vs
    | false =>
        simp only [h1, Bool.false_eq_true, if_false]
        cases h2 : updateGuard nq with
        | true =>
            simp only [h2]
            rcases hm : updateMatch nq with _ | ⟨t, s, w⟩
            · simp only [hm]
              exact rpcFallback_err ora hfail nq
            · simp only [hm]
              rcases hw : whereEqMatch w with _ | ⟨c, v⟩
              · simp only [hw]
                exact rpcFallback_err ora hfail nq
              · simp only [hw]
                exact updateBranch_err ora hfail t s c v
        | false =>
            simp only [h2, Bool.false_eq_true, if_false]
            cases h3 : deleteGuard nq with
            | true =>
                simp only [h3]
                rcases hm : deleteMatch nq with _ | ⟨t, w⟩
                · simp only [hm]
                  exact rpcFallback_err ora hfail nq
                · rcases w with _ | w2
                  · simp only [hm]
                    exact ⟨deleteSafetyMsg, rfl⟩
                  · simp only [hm]
                    rcases hw : whereEqMatch w2 with _ | ⟨c, v⟩
                    · simp only [hw]
                      exact rpcFallback_err ora hfail nq
                    · simp only [hw]
                      exact deleteBranch_err ora hfail t c v
            | false =>
                simp only [h3, Bool.false_eq_true, if_false]
                exact rpcFallback_err ora hfail nq
  · unfold get_supabase_schema_via_rest schemaFallback
    obtain ⟨e0, h0⟩ := hfail (DBCall.rpc (lc ("get_table_schema")) Option.none)
    obtain ⟨e1, h1⟩ := hfail (DBCall.rpc (lc ("run_sql_query")) (some schemaQueryStr))
    refine ⟨schemaExcMsg ++ e1, ?_⟩
    simp only [h0, h1]

/-- Counterexample to C3 as stated: the claim says a failed regex dispatch
results in an error dict, but `insert into t values (1)` fails the INSERT
regex (no column list) and, with a database client whose RPC passthrough
succeeds, `execute_sql_query` returns the RPC rows — not a dict with an
`error` key. -/
theorem c3_counterexample :
    (execute_sql_query okOra (lc ("insert into t values (1)"))).1
      = SqlResult.rows [[(lc ("a"), PyVal.int 1)]]
    ∧ ∀ m, (execute_sql_query okOra (lc ("insert into t values (1)"))).1
        ≠ SqlResult.errorDict m := by
  constructor
  · decide
  · intro m h
    rw [show (execute_sql_query okOra (lc ("insert into t values (1)"))).1
        = SqlResult.rows [[(lc ("a"), PyVal.int 1)]] by decide] at h
    exact SqlResult.noConfusion h

/-- Witness for C3 (amended) with the everywhere-failing client. -/
theorem c3_witness :
    (∀ c, ∃ e, failOra c = Except.error e)
    ∧ (∃ m, (execute_sql_query failOra (lc ("SELECT 1"))).1 = SqlResult.errorDict m)
    ∧ (∃ m2, get_supabase_schema_via_rest failOra = SchemaResult.errorDict m2) := by
  have hf : ∀ c, ∃ e, failOra c = Except.error e := fun c => ⟨lc ("boom"), rfl⟩
  exact ⟨hf, (c3_error_dict_amended failOra hf (lc ("SELECT 1"))).1,
    (c3_error_dict_amended failOra hf (lc ("SELECT 1"))).2⟩

lemma dropWhile_append_all {p : Char → Bool} {w : List Char} (r : List Char)
    (hw : ∀ c ∈ w, p c = true) : (w ++ r).dropWhile p = r.dropWhile p := by
  induction w with
  | nil => rfl
  | cons c w2 ih =>
      rw [List.cons_append, List.dropWhile_cons, if_pos (hw c (List.mem_cons_self c w2))]
      exact ih (fun d hd => hw d (List.mem_cons_of_mem c hd))

lemma rstripP_append_all {p : Char → Bool} {w : List Char} (x : List Char)
    (hw : ∀ c ∈ w, p c = true) : rstripP p (x ++ w) = rstripP p x := by
  unfold rstripP
  rw [List.reverse_append]
  rw [dropWhile_append_all x.reverse (fun c hc => hw c (List.mem_reverse.mp hc))]

lemma rstripP_all {p : Char → Bool} {l : List Char} (h : ∀ c ∈ l, p c = true) :
    rstripP p l = [] := by
  unfold rstripP
  rw [dropWhile_all (fun c hc => h c (List.mem_reverse.mp hc))]
  rfl

lemma lstripP_eq_self_head {l : List Char} {p : Char → Bool} (h : lstripP p l = l) :
    l.dropWhile p = l := h

/-- Normalisation absorbs a decoration of leading whitespace, trailing
semicolons and whitespace after them, around a query that itself has no
surrounding whitespace. -/
lemma pyNormalize_decorated (q w1 s w2 : List Char)
    (hq1 : lstripP pyIsSpace q = q) (hq2 : rstripP pyIsSpace q = q)
    (hw1 : ∀ c ∈ w1, pyIsSpace c = true) (hw2 : ∀ c ∈ w2, pyIsSpace c = true)
    (hs : ∀ c ∈ s, c = ';') :
    pyNormalize (w1 ++ q ++ s ++ w2) = pyNormalize q := by
  have hsns : ∀ c ∈ s, pyIsSpace c = false := by
    intro c hc
    rw [hs c hc]
    rfl
  have hssemi : ∀ c ∈ s, decide (c = ';') = true := by
    intro c hc
    rw [hs c hc]
    decide
  unfold pyNormalize pyStripWs
  have ha : w1 ++ q ++ s ++ w2 = w1 ++ ((q ++ s) ++ w2) := by
    simp [List.append_assoc]
  rw [ha]
  unfold lstripP
  rw [dropWhile_append_all ((q ++ s) ++ w2) hw1]
  rw [lstripP_eq_self_head hq1]
  cases hqc : q with
  | nil =>
      cases hsc : s with
      | nil =>
          simp only [List.nil_append]
          rw [dropWhile_all hw2]
      | cons c s2 =>
          have hdw : ((([] : List Char) ++ (c :: s2)) ++ w2).dropWhile pyIsSpace
              = (c :: s2) ++ w2 := by
            rw [List.nil_append, List.cons_append, List.dropWhile_cons, if_neg]
            intro hcc
            rw [hsns c (by rw [hsc]; exact List.mem_cons_self c s2)] at hcc
            exact Bool.false_ne_true hcc
          rw [hdw]
          have hr1 : rstripP pyIsSpace ((c :: s2) ++ w2) = rstripP pyIsSpace (c :: s2) :=
            rstripP_append_all (c :: s2) hw2
          rw [hr1]
          have hr2 : rstripP pyIsSpace (c :: s2) = c :: s2 := by
            refine rstripP_eq_self ?_
            intro d hd
            exact hsns d (by rw [hsc]; exact mem_of_getLast?_eq hd)
          rw [hr2]
          have hr3 : rstripP (fun c => c = ';') (c :: s2) = [] := by
            refine rstripP_all ?_
            intro d hd
            exact hssemi d (by rw [hsc]; exact hd)
          rw [hr3]
          rfl
  | cons cq q2 =>
      have hcq : pyIsSpace cq = false := by
        cases hcqs : pyIsSpace cq with
        | false => rfl
        | true =>
            exfalso
            have := hq1
            rw [hqc] at this
            unfold lstripP at this
            rw [List.dropWhile_cons, if_pos hcqs] at this
            have hlen : (q2.dropWhile pyIsSpace).length ≤ q2.length :=
              (List.dropWhile_suffix pyIsSpace).length_le
            rw [this] at hlen
            simp at hlen
      have hdw : (((cq :: q2) ++ s) ++ w2).dropWhile pyIsSpace
          = ((cq :: q2) ++ s) ++ w2 := by
        rw [List.cons_append, List.cons_append, List.dropWhile_cons, if_neg]
        intro hcc
        rw [hcq] at hcc
        exact Bool.false_ne_true hcc
      rw [hdw]
      have hr1 : rstripP pyIsSpace (((cq :: q2) ++ s) ++ w2)
          = rstripP pyIsSpace ((cq :: q2) ++ s) := rstripP_append_all _ hw2
      rw [hr1]
      cases hsc : s with
      | nil =>
          rw [List.append_nil]
      | cons cs s2 =>
          have hr2 : rstripP pyIsSpace ((cq :: q2) ++ (cs :: s2)) = (cq :: q2) ++ (cs :: s2) := by
            refine rstripP_eq_self ?_
            intro d hd
            rw [List.getLast?_append_of_ne_nil _ (List.cons_ne_nil cs s2)] at hd
            exact hsns d (by rw [hsc]; exact mem_of_getLast?_eq hd)
          rw [hr2]
          have hr3 : rstripP (fun c => c = ';') ((cq :: q2) ++ (cs :: s2))
              = rstripP (fun c => c = ';') (cq :: q2) := by
            refine rstripP_append_all _ ?_
            intro d hd
            exact hssemi d (by rw [hsc]; exact hd)
          rw [hr3, ← hqc, hq2]

/-- C10 (amended): `execute_sql_query` returns the same result — and makes
the same calls — on `q` and on `q` decorated with leading whitespace,
trailing semicolons, and whitespace after those semicolons, provided `q`
itself has no surrounding whitespace: the source strips whitespace first
and only then trailing semicolons, so only whitespace appearing after the
last semicolon is absorbed. -/
theorem c10_normalize_amended (ora : Oracle) (q w1 s w2 : List Char)
    (hq1 : lstripP pyIsSpace q = q) (hq2 : rstripP pyIsSpace q = q)
    (hw1 : ∀ c ∈ w1, pyIsSpace c = true) (hw2 : ∀ c ∈ w2, pyIsSpace c = true)
    (hs : ∀ c ∈ s, c = ';') :
    execute_sql_query ora (w1 ++ q ++ s ++ w2) = execute_sql_query ora q := by
  unfold execute_sql_query
  rw [pyNormalize_decorated q w1 s w2 hq1 hq2 hw1 hw2 hs]

/-- Counterexample to C10 as stated: appending whitespace and then a
semicolon is not invisible — `SELECT 1 ;` normalises to `SELECT 1 ` (with a
trailing space), which the RPC passthrough receives verbatim, so a client
that distinguishes the two SQL texts yields different results. -/
theorem c10_counterexample :
    execute_sql_query echoOra (lc ("SELECT 1 ;"))
      ≠ execute_sql_query echoOra (lc ("SELECT 1")) := by
  decide

/-- Witness for C10 (amended) at a concrete query and decoration. -/
theorem c10_witness :
    (lstripP pyIsSpace (lc ("SELECT 1")) = lc ("SELECT 1")
      ∧ rstripP pyIsSpace (lc ("SELECT 1")) = lc ("SELECT 1"))
    ∧ execute_sql_query echoOra (lc (" ") ++ lc ("SELECT 1") ++ lc (";;") ++ lc (" "))
      = execute_sql_query echoOra (lc ("SELECT 1")) := by
  refine ⟨⟨by decide, by decide⟩, ?_⟩
  exact c10_normalize_amended echoOra (lc ("SELECT 1")) (lc (" ")) (lc (";;")) (lc (" "))
    (by decide) (by decide) (by decide) (by decide) (by decide)

/-- The claim's four coercion rules, as a relation between a literal token
and its coerced value: `NULL` (case-insensitive) becomes null; a token in
matching single or double quotes becomes the unquoted string; an unquoted
token containing a dot goes through float conversion and any other through
int conversion, the original string being kept when conversion fails. -/
def FourRuleSpec (v : List Char) (out : PyVal) : Prop :=
  (asciiUpper v = lc ("NULL") ∧ out = PyVal.none)
  ∨ (asciiUpper v ≠ lc ("NULL")
      ∧ (quotedBy sqc v = true ∨ quotedBy '"' v = true)
      ∧ out = PyVal.str (unquote v))
  ∨ (asciiUpper v ≠ lc ("NULL") ∧ quotedBy sqc v = false ∧ quotedBy '"' v = false
      ∧ containsB (lc (".")) v = true
      ∧ ((∃ x, pyFloatParse v = some x ∧ out = PyVal.float x)
          ∨ (pyFloatParse v = Option.none ∧ out = PyVal.str v)))
  ∨ (asciiUpper v ≠ lc ("NULL") ∧ quotedBy sqc v = false ∧ quotedBy '"' v = false
      ∧ containsB (lc (".")) v = false
      ∧ ((∃ n, pyIntParse v = some n ∧ out = PyVal.int n)
          ∨ (pyIntParse v = Option.none ∧ out = PyVal.str v)))

/-- The different rule the source applies to WHERE values: only single
quotes are stripped, only all-digit tokens become ints, and every other
token — including `NULL`, double-quoted strings and float literals — is
kept as the original string. -/
def WhereRuleSpec (v : List Char) (out : PyVal) : Prop :=
  (quotedBy sqc v = true ∧ out = PyVal.str (unquote v))
  ∨ (quotedBy sqc v = false ∧ isDigitStr v = true ∧ out = PyVal.int (digitsVal v))
  ∨ (quotedBy sqc v = false ∧ isDigitStr v = false ∧ out = PyVal.str v)

/-- C2 (amended): the INSERT-value and UPDATE-SET coercion satisfies the
claim's four rules, while the WHERE-value coercion of the UPDATE and DELETE
branches follows the different three-rule scheme. -/
theorem c2_coercion_amended (v : List Char) :
    FourRuleSpec v (coerceVal v) ∧ WhereRuleSpec v (coerceWhere v) := by
  constructor
  · unfold coerceVal FourRuleSpec
    by_cases h1 : asciiUpper v = lc ("NULL")
    · rw [if_pos h1]
      exact Or.inl ⟨h1, rfl⟩
    · rw [if_neg h1]
      by_cases h2 : (quotedBy sqc v || quotedBy '"' v) = true
      · rw [if_pos h2]
        exact Or.inr (Or.inl ⟨h1, (Bool.or_eq_true _ _) ▸ h2, rfl⟩)
      · rw [if_neg h2]
        have h2f : quotedBy sqc v = false ∧ quotedBy '"' v = false := by
          constructor
          · cases hh : quotedBy sqc v with
            | false => rfl
            | true => exact absurd (by rw [hh]; rfl) h2
          · cases hh : quotedBy '"' v with
            | false => rfl
            | true =>
                exfalso
                apply h2
                rw [hh, Bool.or_true]
        by_cases h3 : containsB (lc (".")) v = true
        · rw [if_pos h3]
          refine Or.inr (Or.inr (Or.inl ⟨h1, h2f.1, h2f.2, h3, ?_⟩))
          cases hf : pyFloatParse v with
          | none => exact Or.inr ⟨rfl, rfl⟩
          | some x => exact Or.inl ⟨x, rfl, rfl⟩
        · have h3f : containsB (lc (".")) v = false := by
            cases hh : containsB (lc (".")) v with
            | false => rfl
            | true => exact absurd hh h3
          rw [if_neg h3]
          refine Or.inr (Or.inr (Or.inr ⟨h1, h2f.1, h2f.2, h3f, ?_⟩))
          cases hf : pyIntParse v with
          | none => exact Or.inr ⟨rfl, rfl⟩
          | some n => exact Or.inl ⟨n, rfl, rfl⟩
  · unfold coerceWhere WhereRuleSpec
    by_cases h1 : quotedBy sqc v = true
    · rw [if_pos h1]
      exact Or.inl ⟨h1, rfl⟩
    · have h1f : quotedBy sqc v = false := by
        cases hh : quotedBy sqc v with
        | false => rfl
        | true => exact absurd hh h1
      rw [if_neg (by rw [h1f]; exact Bool.false_ne_true)]
      by_cases h2 : isDigitStr v = true
      · rw [if_pos h2]
        exact Or.inr (Or.inl ⟨h1f, h2, rfl⟩)
      · have h2f : isDigitStr v = false := by
          cases hh : isDigitStr v with
          | false => rfl
          | true => exact absurd hh h2
        rw [if_neg (by rw [h2f]; exact Bool.false_ne_true)]
        exact Or.inr (Or.inr ⟨h1f, h2f, rfl⟩)

/-- Counterexample to C2 as stated: in `UPDATE t SET a = 1 WHERE id = 2.5`,
the WHERE token `2.5` is dispatched to the client as the original string,
whereas the claim's third rule (unquoted token containing a dot becomes a
float) — which the SET side does follow — would demand a float value. -/
theorem c2_counterexample :
    (execute_sql_query okOra (lc ("UPDATE t SET a = 1 WHERE id = 2.5"))).2
      = [DBCall.update (lc ("t")) [(lc ("a"), PyVal.int 1)] (lc ("id"))
          (PyVal.str (lc ("2.5")))]
    ∧ (∃ x, coerceVal (lc ("2.5")) = PyVal.float x)
    ∧ ∀ x, PyVal.str (lc ("2.5")) ≠ PyVal.float x := by
  refine ⟨by decide, ⟨_, rfl⟩, ?_⟩
  intro x h
  exact PyVal.noConfusion h

lemma amountFromText_eq_some_some {t : List Char} {v : ℚ} :
    amountFromText t = some (some v) ↔
    ∃ g, firstAmountGroup t = some g ∧ pyFloatParse (cleanAmount g) = some v := by
  unfold amountFromText
  cases hg : firstAmountGroup t with
  | none =>
      constructor
      · intro h
        exact Option.noConfusion (Option.some.inj h)
      · rintro ⟨g, hgg, -⟩
        exact Option.noConfusion hgg
  | some g =>
      show (match pyFloatParse (cleanAmount g) with
            | some q => some (some q)
            | Option.none => Option.none) = some (some v)
          ↔ ∃ g2, some g = some g2 ∧ pyFloatParse (cleanAmount g2) = some v
      cases hp : pyFloatParse (cleanAmount g) with
      | none =>
          constructor
          · intro h
            exact Option.noConfusion h
          · rintro ⟨g2, hgg, hpp⟩
            obtain rfl := Option.some.inj hgg
            rw [hp] at hpp
            exact Option.noConfusion hpp
      | some x =>
          constructor
          · intro h
            obtain rfl := Option.some.inj (Option.some.inj h)
            exact ⟨g, rfl, hp⟩
          · rintro ⟨g2, hgg, hpp⟩
            obtain rfl := Option.some.inj hgg
            rw [hp] at hpp
            obtain rfl := Option.some.inj hpp
            rfl

/-- C4 (amended): agent.py's copy of `extract_amount_from_receipt` never
raises, and image.py's copy either returns exactly what agent.py's copy
returns or raises where agent.py's catch-all returns `None` — it raises on
a body lookup failing other than by `KeyError` (a `JSONDecodeError` or
`IndexError` escapes its `except KeyError`) and on a cleaned first regex
match that fails Python's float conversion (`ValueError`).  agent.py's
copy returns a value exactly when the response is a 200 whose body parses
and whose first amount-regex match cleans to a valid float literal, the
returned value being that literal's value. -/
theorem c4_extract_amended (st : Nat) (body : Except VisionErr (List Char)) :
    ((extract_amount_from_receipt_image st body
        = Except.ok (extract_amount_from_receipt_agent st body))
      ∨ ((∃ e, extract_amount_from_receipt_image st body = Except.error e)
          ∧ extract_amount_from_receipt_agent st body = Option.none))
    ∧ ∀ v : ℚ, (extract_amount_from_receipt_agent st body = some v ↔
        (st = 200 ∧ ∃ t g, body = Except.ok t ∧ firstAmountGroup t = some g
          ∧ pyFloatParse (cleanAmount g) = some v)) := by
  by_cases hst : st = 200
  · subst hst
    cases body with
    | error e =>
        have hag : extract_amount_from_receipt_agent 200 (Except.error e)
            = Option.none := rfl
        refine ⟨?_, ?_⟩
        · cases e with
          | jsonErr => exact Or.inr ⟨⟨PyExc.jsonDecodeError, rfl⟩, hag⟩
          | idxErr => exact Or.inr ⟨⟨PyExc.indexError, rfl⟩, hag⟩
          | keyErr => exact Or.inl rfl
        · intro v
          constructor
          · intro h
            rw [hag] at h
            exact Option.noConfusion h
          · rintro ⟨-, t, g, ht, -⟩
            exact Except.noConfusion ht
    | ok t =>
        have himg : extract_amount_from_receipt_image 200 (Except.ok t)
            = (match amountFromText t with
               | some r => Except.ok r
               | Option.none => Except.error PyExc.valueError) := rfl
        have hag : extract_amount_from_receipt_agent 200 (Except.ok t)
            = (match amountFromText t with
               | some r => r
               | Option.none => Option.none) := rfl
        rw [himg, hag]
        cases haf : amountFromText t with
        | none =>
            refine ⟨Or.inr ⟨⟨PyExc.valueError, rfl⟩, rfl⟩, ?_⟩
            intro v
            constructor
            · intro h
              exact Option.noConfusion h
            · rintro ⟨-, t2, g, ht2, hg2, hp2⟩
              obtain rfl := Except.ok.inj ht2
              have : amountFromText t = some (some v) :=
                amountFromText_eq_some_some.mpr ⟨g, hg2, hp2⟩
              rw [haf] at this
              exact Option.noConfusion this
        | some r =>
            refine ⟨Or.inl rfl, ?_⟩
            intro v
            cases r with
            | none =>
                constructor
                · intro h
                  exact Option.noConfusion h
                · rintro ⟨-, t2, g, ht2, hg2, hp2⟩
                  obtain rfl := Except.ok.inj ht2
                  have hv : amountFromText t = some (some v) :=
                    amountFromText_eq_some_some.mpr ⟨g, hg2, hp2⟩
                  rw [haf] at hv
                  exact Option.noConfusion (Option.some.inj hv)
            | some x =>
                constructor
                · intro h
                  obtain rfl := Option.some.inj h
                  obtain ⟨g, hg, hp⟩ := amountFromText_eq_some_some.mp haf
                  exact ⟨rfl, t, g, rfl, hg, hp⟩
                · rintro ⟨-, t2, g, ht2, hg2, hp2⟩
                  obtain rfl := Except.ok.inj ht2
                  have hv : amountFromText t = some (some v) :=
                    amountFromText_eq_some_some.mpr ⟨g, hg2, hp2⟩
                  rw [haf] at hv
                  exact Option.some.inj hv
  · have himg : extract_amount_from_receipt_image st body = Except.ok Option.none := by
      unfold extract_amount_from_receipt_image
      rw [if_neg hst]
    have hag : extract_amount_from_receipt_agent st body = Option.none := by
      unfold extract_amount_from_receipt_agent
      rw [if_neg hst]
    rw [himg, hag]
    refine ⟨Or.inl rfl, ?_⟩
    intro v
    constructor
    · intro h
      exact Option.noConfusion h
    · rintro ⟨h200, -⟩
      exact absurd h200 hst

/-- Counterexample to C4 as stated ("this holds identically for the copy
in each of the two source files"): on the reply text `","` — whose first
amount-regex match is the bare comma, cleaning to the empty string —
image.py's copy raises `ValueError` from `float("")` while agent.py's
returns `None`; and on a 200 response whose body lookup fails with
`IndexError` (an empty candidates list) image.py's copy raises — its
`except KeyError` catches neither exception — while agent.py's returns
`None` again. -/
theorem c4_counterexample :
    (extract_amount_from_receipt_image 200 (Except.ok (lc (",")))
        = Except.error PyExc.valueError
      ∧ extract_amount_from_receipt_agent 200 (Except.ok (lc (",")))
        = Option.none)
    ∧ extract_amount_from_receipt_image 200 (Except.error VisionErr.idxErr)
        = Except.error PyExc.indexError
    ∧ extract_amount_from_receipt_agent 200 (Except.error VisionErr.idxErr)
        = Option.none := by
  exact ⟨⟨by decide, by decide⟩, by decide, by decide⟩

lemma findSqlStart_eq (t : List Char) :
    findSqlStart t
      = ((List.range t.length).find? (fun i => keywordAtB t i)).map (fun i => t.drop i) := by
  induction t with
  | nil => rfl
  | cons c rest ih =>
      show (if keywordHereB (c :: rest) then some (c :: rest) else findSqlStart rest) = _
      rw [List.length_cons, List.range_succ_eq_map]
      cases hk : keywordHereB (c :: rest) with
      | true =>
          rw [if_pos rfl]
          have h0 : (fun i => keywordAtB (c :: rest) i) 0 = true := hk
          rw [List.find?_cons_of_pos _ h0]
          rfl
      | false =>
          rw [if_neg Bool.false_ne_true]
          have h0 : ¬ ((fun i => keywordAtB (c :: rest) i) 0 = true) := by
            intro hx
            have hx2 : keywordHereB (c :: rest) = true := hx
            rw [hk] at hx2
            exact Bool.false_ne_true hx2
          rw [List.find?_cons_of_neg _ h0]
          rw [List.find?_map]
          have hcomp : ((fun i => keywordAtB (c :: rest) i) ∘ Nat.succ)
              = fun i => keywordAtB rest i := by
            funext i
            rfl
          rw [hcomp, ih, Option.map_map]
          rfl

/-- C6 (confirmed): the response handling of `nl_to_sql_gemini` behaves as
the claim describes — on a 200 response with at least one candidate it
returns the cleaned text's suffix from the smallest offset at which one of
SELECT / INSERT / UPDATE / DELETE starts (case-insensitively), trimmed, or
the whole cleaned text when no keyword occurs; with no candidates or a
non-200 status it returns an error object. -/
theorem c6_nl_to_sql_matches_claim (r : GeminiResponse) :
    nl_to_sql_gemini_fromResponse r = claimed_nl_to_sql r := by
  unfold nl_to_sql_gemini_fromResponse claimed_nl_to_sql
  by_cases h : r.status = 200
  · rw [if_pos h, if_pos h]
    cases r.candidates with
    | nil => rfl
    | cons t rest =>
        show Except.ok (extractSqlFromText (cleanGeminiText t))
          = Except.ok (claimedSqlText (cleanGeminiText t))
        have he : extractSqlFromText (cleanGeminiText t)
            = claimedSqlText (cleanGeminiText t) := by
          unfold extractSqlFromText claimedSqlText
          rw [findSqlStart_eq]
          cases hf : (List.range (cleanGeminiText t).length).find?
              (fun i => keywordAtB (cleanGeminiText t) i) with
          | none => rfl
          | some i => rfl
        rw [he]
  · rw [if_neg h, if_neg h]

/-- Declarative substring relation (the claim's "contains"). -/
def SubstringOf (pat s : List Char) : Prop := ∃ l r, s = l ++ pat ++ r

lemma containsB_iff (pat s : List Char) : containsB pat s = true ↔ SubstringOf pat s := by
  induction s with
  | nil =>
      constructor
      · intro h
        have hp : pat = [] := by
          cases pat with
          | nil => rfl
          | cons c r => exact absurd h (by simp [containsB, List.isEmpty])
        exact ⟨[], [], by rw [hp]; rfl⟩
      · rintro ⟨l, r, hs⟩
        have h1 := List.append_eq_nil.mp (List.append_eq_nil.mp hs.symm).1
        rw [h1.2]
        rfl
  | cons c rest ih =>
      show (pat.isPrefixOf (c :: rest) || containsB pat rest) = true ↔ _
      constructor
      · intro h
        rcases (Bool.or_eq_true _ _) ▸ h with h1 | h2
        · obtain ⟨r, hr⟩ := List.isPrefixOf_iff_prefix.mp h1
          exact ⟨[], r, by rw [← hr]; rfl⟩
        · obtain ⟨l, r, hs⟩ := ih.mp h2
          exact ⟨c :: l, r, by rw [hs]; rfl⟩
      · rintro ⟨l, r, hs⟩
        cases l with
        | nil =>
            have hpre : pat.isPrefixOf (c :: rest) = true :=
              List.isPrefixOf_iff_prefix.mpr ⟨r, by rw [hs]; rfl⟩
            rw [hpre, Bool.true_or]
        | cons cl l2 =>
            have hrest : containsB pat rest = true := by
              refine ih.mpr ⟨l2, r, ?_⟩
              have hs2 : c :: rest = cl :: (l2 ++ pat ++ r) := hs
              exact (List.cons.inj hs2).2
            rw [hrest, Bool.or_true]

/-- C7 (confirmed): whenever the lowercased user input contains one of the
audio terms and one of the summary terms, `handle_request` routes to audio
handling — issuing the `refund_requests` query for rows with non-null
`audio_url` — before the storage-image check, the generic database check
and every legacy branch are even considered. -/
theorem c7_audio_routed_first (u : List Char)
    (ha : ∃ t ∈ audioTerms, SubstringOf t (asciiLower u))
    (hs : ∃ t ∈ summaryTerms, SubstringOf t (asciiLower u)) :
    handle_request_route u = Route.audio audioSqlQuery := by
  have hb : audioCondB u = true := by
    unfold audioCondB
    obtain ⟨t1, ht1, hsub1⟩ := ha
    obtain ⟨t2, ht2, hsub2⟩ := hs
    rw [Bool.and_eq_true]
    constructor
    · exact List.any_eq_true.mpr ⟨t1, ht1, (containsB_iff t1 (asciiLower u)).mpr hsub1⟩
    · exact List.any_eq_true.mpr ⟨t2, ht2, (containsB_iff t2 (asciiLower u)).mpr hsub2⟩
  unfold handle_request_route
  rw [if_pos hb]

/-- Witness for C7 at a concrete input containing an audio term and a
summary term. -/
theorem c7_witness :
    (∃ t ∈ audioTerms, SubstringOf t (asciiLower (lc ("give a summary of the audio"))))
    ∧ (∃ t ∈ summaryTerms, SubstringOf t (asciiLower (lc ("give a summary of the audio"))))
    ∧ handle_request_route (lc ("give a summary of the audio"))
        = Route.audio audioSqlQuery := by
  have h1 : ∃ t ∈ audioTerms, SubstringOf t (asciiLower (lc ("give a summary of the audio"))) :=
    ⟨lc ("audio"), by decide, lc ("give a summary of the "), [], by decide⟩
  have h2 : ∃ t ∈ summaryTerms, SubstringOf t (asciiLower (lc ("give a summary of the audio"))) :=
    ⟨lc ("summary"), by decide, lc ("give a "), lc (" of the audio"), by decide⟩
  exact ⟨h1, h2, c7_audio_routed_first (lc ("give a summary of the audio")) h1 h2⟩

lemma rstripP_head {p : Char → Bool} {c : Char} {l : List Char} (hc : p c = false) :
    ∃ l2, rstripP p (c :: l) = c :: l2 := by
  have hsuf : (c :: l).reverse.dropWhile p <:+ (c :: l).reverse := List.dropWhile_suffix p
  have hne : (c :: l).reverse.dropWhile p ≠ [] := by
    intro hnil
    have hall := List.dropWhile_eq_nil_iff.mp hnil
    have hcmem : c ∈ (c :: l).reverse := List.mem_reverse.mpr (List.mem_cons_self c l)
    have hct := hall c hcmem
    rw [hc] at hct
    exact Bool.false_ne_true hct
  obtain ⟨pre, hpre⟩ := hsuf
  have hrev : ((c :: l).reverse.dropWhile p).reverse ++ pre.reverse = c :: l := by
    have hc2 := congrArg List.reverse hpre
    rw [List.reverse_append, List.reverse_reverse] at hc2
    exact hc2
  cases hd : ((c :: l).reverse.dropWhile p).reverse with
  | nil =>
      exfalso
      apply hne
      have hc3 := congrArg List.reverse hd
      rw [List.reverse_reverse] at hc3
      exact hc3
  | cons e d2 =>
      refine ⟨d2, ?_⟩
      have hrev2 : e :: (d2 ++ pre.reverse) = c :: l := by
        rw [← List.cons_append, ← hd]
        exact hrev
      have hec : e = c := (List.cons.inj hrev2).1
      unfold rstripP
      rw [hd, hec]

lemma pyNormalize_head {c : Char} {l : List Char} (h1 : pyIsSpace c = false)
    (h2 : decide (c = ';') = false) : ∃ l2, pyNormalize (c :: l) = c :: l2 := by
  unfold pyNormalize pyStripWs lstripP
  have hd : (c :: l).dropWhile pyIsSpace = c :: l := by
    rw [List.dropWhile_cons, if_neg (by rw [h1]; exact Bool.false_ne_true)]
  rw [hd]
  obtain ⟨l2, hl2⟩ := rstripP_head (p := pyIsSpace) (l := l) h1
  rw [hl2]
  obtain ⟨l3, hl3⟩ := rstripP_head (p := fun d => decide (d = ';')) (l := l2) h2
  exact ⟨l3, hl3⟩

lemma isPrefixOf_cons_ne {a b : Char} (as bs : List Char) (h : (a == b) = false) :
    List.isPrefixOf (a :: as) (b :: bs) = false := by
  show (a == b && List.isPrefixOf as bs) = false
  rw [h, Bool.false_and]

lemma insertGuard_head {c : Char} {l : List Char} (h : (('i' : Char) == lowerChar c) = false) :
    insertGuard (c :: l) = false := by
  unfold insertGuard asciiLower
  rw [List.map_cons]
  show List.isPrefixOf ('i' :: lc ("nsert into")) (lowerChar c :: List.map lowerChar l) = false
  exact isPrefixOf_cons_ne _ _ h

lemma execute_core_no_insert (ora : Oracle) (nq : List Char)
    (hq : insertGuard nq = false) (t : List Char) (d : List (List Char × PyVal)) :
    DBCall.insert t d ∉ (execute_sql_query_core ora nq).2 := by
  have hrpc : ∀ (q2 : List Char), DBCall.insert t d ∉ (rpcFallback ora q2).2 := by
    intro q2 hmem
    obtain ⟨f, a2, hc⟩ := (rpcFallback_observed ora q2).2 _ hmem
    exact DBCall.noConfusion hc
  unfold execute_sql_query_core
  rw [if_neg (show ¬ insertGuard nq = true by rw [hq]; exact Bool.false_ne_true)]
  by_cases h2 : updateGuard nq = true
  · rw [if_pos h2]
    rcases hm : updateMatch nq with _ | ⟨tt, s, w⟩
    · simp only [hm]
      exact hrpc nq
    · simp only [hm]
      rcases hw : whereEqMatch w with _ | ⟨cc, v⟩
      · simp only [hw]
        exact hrpc nq
      · simp only [hw]
        obtain ⟨d2, v2, htr⟩ := updateBranch_observed ora tt s cc v
        intro hmem
        rw [htr] at hmem
        simp only [List.mem_cons, List.not_mem_nil, or_false] at hmem
        exact DBCall.noConfusion hmem
  · rw [if_neg h2]
    by_cases h3 : deleteGuard nq = true
    · rw [if_pos h3]
      rcases hm : deleteMatch nq with _ | ⟨tt, w⟩
      · simp only [hm]
        exact hrpc nq
      · rcases w with _ | w2
        · simp only [hm]
          exact List.not_mem_nil _
        · simp only [hm]
          rcases hw : whereEqMatch w2 with _ | ⟨cc, v⟩
          · simp only [hw]
            exact hrpc nq
          · simp only [hw]
            obtain ⟨v2, htr⟩ := deleteBranch_observed ora tt cc v
            intro hmem
            rw [htr] at hmem
            simp only [List.mem_cons, List.not_mem_nil, or_false] at hmem
            exact DBCall.noConfusion hmem
    · rw [if_neg h3]
      exact hrpc nq

lemma no_insert_updSql (ora : Oracle) (fmt : ℚ → List Char) (i : Nat) (url : List Char)
    (a : ℚ) (t : List Char) (d : List (List Char × PyVal)) :
    DBCall.insert t d ∉ (execute_sql_query ora (updSqlQuery fmt i url a)).2 := by
  have hcons : ∃ r, updSqlQuery fmt i url a = 'U' :: r := ⟨_, rfl⟩
  obtain ⟨r, hr⟩ := hcons
  unfold execute_sql_query
  rw [hr]
  obtain ⟨l2, hn⟩ := pyNormalize_head (c := 'U') (l := r) (by decide) (by decide)
  rw [hn]
  exact execute_core_no_insert ora _ (insertGuard_head (by decide)) t d

lemma no_insert_checkSql (ora : Oracle) (i : Nat) (t : List Char)
    (d : List (List Char × PyVal)) :
    DBCall.insert t d ∉ (execute_sql_query ora (checkSql i)).2 := by
  have hcons : ∃ r, checkSql i = 'S' :: r := ⟨_, rfl⟩
  obtain ⟨r, hr⟩ := hcons
  unfold execute_sql_query
  rw [hr]
  obtain ⟨l2, hn⟩ := pyNormalize_head (c := 'S') (l := r) (by decide) (by decide)
  rw [hn]
  exact execute_core_no_insert ora _ (insertGuard_head (by decide)) t d

/-- A call inserting a two-field receipt record into `refund_requests`. -/
def TwoFieldInsert (c : DBCall) : Prop :=
  ∃ url a, c = DBCall.insert rrTable (twoFieldData url a)

/-- If the call is an insert at all, it carries a three-field batch
record. -/
def BatchInsertOk (c : DBCall) : Prop :=
  ∀ t d, c = DBCall.insert t d → t = rrTable ∧ ∃ i url a, d = threeFieldData i url a

lemma receiptStep_trace_none (ora : Oracle) (extract : List Char → Option ℚ)
    (acc : List ReceiptEntry × List DBCall) (url : List Char)
    (hx : extract url = Option.none) :
    (receiptStep ora extract acc url).2 = acc.2 := by
  simp only [receiptStep, hx]

lemma receiptStep_trace_some (ora : Oracle) (extract : List Char → Option ℚ)
    (acc : List ReceiptEntry × List DBCall) (url : List Char) (a : ℚ)
    (hx : extract url = some a) :
    (receiptStep ora extract acc url).2
      = acc.2 ++ [DBCall.insert rrTable (twoFieldData url a)] := by
  simp only [receiptStep, hx]
  cases ho : ora (DBCall.insert rrTable (twoFieldData url a)) with
  | error e => rfl
  | ok resp =>
      show (if dataTruthy resp = true
          then (acc.1 ++ [ReceiptEntry.success url a],
            acc.2 ++ [DBCall.insert rrTable (twoFieldData url a)])
          else (acc.1 ++ [ReceiptEntry.dbSaveFailed url a],
            acc.2 ++ [DBCall.insert rrTable (twoFieldData url a)])).2
        = acc.2 ++ [DBCall.insert rrTable (twoFieldData url a)]
      by_cases hdt : dataTruthy resp = true
      · rw [if_pos hdt]
      · rw [if_neg hdt]

lemma receiptStep_calls (ora : Oracle) (extract : List Char → Option ℚ)
    (acc : List ReceiptEntry × List DBCall) (url : List Char)
    (h : ∀ c ∈ acc.2, TwoFieldInsert c) :
    ∀ c ∈ (receiptStep ora extract acc url).2, TwoFieldInsert c := by
  cases hx : extract url with
  | none =>
      rw [receiptStep_trace_none ora extract acc url hx]
      exact h
  | some a =>
      rw [receiptStep_trace_some ora extract acc url a hx]
      intro c hc
      rcases List.mem_append.mp hc with hc1 | hc2
      · exact h c hc1
      · simp only [List.mem_cons, List.not_mem_nil, or_false] at hc2
        exact ⟨url, a, hc2⟩

lemma foldl_receipt_calls (ora : Oracle) (extract : List Char → Option ℚ) :
    ∀ (urls : List (List Char)) (acc : List ReceiptEntry × List DBCall),
      (∀ c ∈ acc.2, TwoFieldInsert c) →
      ∀ c ∈ (urls.foldl (receiptStep ora extract) acc).2, TwoFieldInsert c := by
  intro urls
  induction urls with
  | nil =>
      intro acc h
      exact h
  | cons u rest ih =>
      intro acc h
      rw [List.foldl_cons]
      exact ih _ (receiptStep_calls ora extract acc u h)

lemma populateStep_calls (ora : Oracle) (extract : List Char → Except Unit (Option ℚ))
    (acc : List DBCall × Bool) (f : List Char)
    (h : ∀ c ∈ acc.1, TwoFieldInsert c) :
    ∀ c ∈ (populateStep ora extract acc f).1, TwoFieldInsert c := by
  by_cases hgo : acc.2 = true
  · cases hx : extract (bucketUrl f) with
    | error e =>
        have ht : (populateStep ora extract acc f).1 = acc.1 := by
          simp only [populateStep, hx, if_pos hgo]
        rw [ht]
        exact h
    | ok r =>
        cases r with
        | none =>
            have ht : (populateStep ora extract acc f).1 = acc.1 := by
              simp only [populateStep, hx, if_pos hgo]
            rw [ht]
            exact h
        | some a =>
            have ht : (populateStep ora extract acc f).1
                = acc.1 ++ [DBCall.insert rrTable (twoFieldData (bucketUrl f) a)] := by
              simp only [populateStep, hx, if_pos hgo]
              cases ho : ora (DBCall.insert rrTable (twoFieldData (bucketUrl f) a)) with
              | error e => rfl
              | ok resp => rfl
            rw [ht]
            intro c hc
            rcases List.mem_append.mp hc with hc1 | hc2
            · exact h c hc1
            · simp only [List.mem_cons, List.not_mem_nil, or_false] at hc2
              exact ⟨bucketUrl f, a, hc2⟩
  · have ht : (populateStep ora extract acc f).1 = acc.1 := by
      simp only [populateStep, if_neg hgo]
    rw [ht]
    exact h

lemma foldl_populate_calls (ora : Oracle) (extract : List Char → Except Unit (Option ℚ)) :
    ∀ (fs : List (List Char)) (acc : List DBCall × Bool),
      (∀ c ∈ acc.1, TwoFieldInsert c) →
      ∀ c ∈ (fs.foldl (populateStep ora extract) acc).1, TwoFieldInsert c := by
  intro fs
  induction fs with
  | nil =>
      intro acc h
      exact h
  | cons f rest ih =>
      intro acc h
      rw [List.foldl_cons]
      exact ih _ (populateStep_calls ora extract acc f h)

lemma storageTableErrHandler_trace (ora : Oracle) (fmt : ℚ → List Char) (i : Nat)
    (url : List Char) (a : ℚ) :
    (storageTableErrHandler ora fmt i url a).2
      = (execute_sql_query ora (updSqlQuery fmt i url a)).2 := by
  simp only [storageTableErrHandler]
  by_cases hE : isErrDict (execute_sql_query ora (updSqlQuery fmt i url a)).1 = true
  · rw [if_pos hE]
  · rw [if_neg hE]

lemma storageDataCheck_trace (ora : Oracle) (fmt : ℚ → List Char) (i : Nat)
    (url : List Char) (a : ℚ) (resp : DBResponse) (calls : List DBCall) :
    ∃ ext, (storageDataCheck ora fmt i url a resp calls).2 = calls ++ ext
      ∧ ∀ t d, DBCall.insert t d ∈ ext → t = rrTable ∧ d = threeFieldData i url a := by
  by_cases h1 : dataTruthy resp = true
  · refine ⟨[], ?_, ?_⟩
    · simp only [storageDataCheck, if_pos h1, List.append_nil]
    · intro t d hd
      exact absurd hd (List.not_mem_nil _)
  · by_cases h2 : (match (execute_sql_query ora (checkSql i)).1 with
        | SqlResult.rows rows => !rows.isEmpty
        | _ => false) = true
    · refine ⟨(execute_sql_query ora (checkSql i)).2, ?_, ?_⟩
      · simp only [storageDataCheck, if_neg h1, if_pos h2]
      · intro t d hd
        exact absurd hd (no_insert_checkSql ora i t d)
    · cases ho : ora (DBCall.insert rrTable (threeFieldData i url a)) with
      | error e =>
          refine ⟨(execute_sql_query ora (checkSql i)).2
              ++ [DBCall.insert rrTable (threeFieldData i url a)]
              ++ (storageTableErrHandler ora fmt i url a).2, ?_, ?_⟩
          · simp only [storageDataCheck, if_neg h1, if_neg h2, ho, List.append_assoc]
          · intro t d hd
            rcases List.mem_append.mp hd with hd1 | hd2
            · rcases List.mem_append.mp hd1 with hda | hdb
              · exact absurd hda (no_insert_checkSql ora i t d)
              · simp only [List.mem_cons, List.not_mem_nil, or_false] at hdb
                exact DBCall.insert.inj hdb
            · rw [storageTableErrHandler_trace] at hd2
              exact absurd hd2 (no_insert_updSql ora fmt i url a t d)
      | ok iresp =>
          refine ⟨(execute_sql_query ora (checkSql i)).2
              ++ [DBCall.insert rrTable (threeFieldData i url a)], ?_, ?_⟩
          · simp only [storageDataCheck, if_neg h1, if_neg h2, ho]
            by_cases h3 : dataTruthy iresp = true
            · rw [if_pos h3, List.append_assoc]
            · rw [if_neg h3, List.append_assoc]
          · intro t d hd
            rcases List.mem_append.mp hd with hd1 | hd2
            · exact absurd hd1 (no_insert_checkSql ora i t d)
            · simp only [List.mem_cons, List.not_mem_nil, or_false] at hd2
              exact DBCall.insert.inj hd2

lemma storageRowCore_trace (ora : Oracle) (fmt : ℚ → List Char) (i : Nat)
    (url : List Char) (a : ℚ) :
    ∃ ext, (storageRowCore ora fmt i url a).2
        = DBCall.update rrTable (twoFieldData url a) (lc ("id")) (PyVal.int i) :: ext
      ∧ ∀ t d, DBCall.insert t d ∈ ext → t = rrTable ∧ d = threeFieldData i url a := by
  cases ho : ora (DBCall.update rrTable (twoFieldData url a) (lc ("id")) (PyVal.int i)) with
  | error e =>
      refine ⟨(storageTableErrHandler ora fmt i url a).2, ?_, ?_⟩
      · simp only [storageRowCore, ho]
      · intro t d hd
        rw [storageTableErrHandler_trace] at hd
        exact absurd hd (no_insert_updSql ora fmt i url a t d)
  | ok resp =>
      cases hre : resp.error with
      | none =>
          obtain ⟨ext, hext, hp⟩ := storageDataCheck_trace ora fmt i url a resp
            [DBCall.update rrTable (twoFieldData url a) (lc ("id")) (PyVal.int i)]
          refine ⟨ext, ?_, hp⟩
          simp only [storageRowCore, ho, hre]
          rw [hext]
          rfl
      | some err =>
          by_cases hE : isErrDict (execute_sql_query ora (updSqlQuery fmt i url a)).1 = true
          · refine ⟨(execute_sql_query ora (updSqlQuery fmt i url a)).2
                ++ (storageTableErrHandler ora fmt i url a).2, ?_, ?_⟩
            · simp only [storageRowCore, ho, hre, if_pos hE]
              rw [List.cons_append]
            · intro t d hd
              rcases List.mem_append.mp hd with hd1 | hd2
              · exact absurd hd1 (no_insert_updSql ora fmt i url a t d)
              · rw [storageTableErrHandler_trace] at hd2
                exact absurd hd2 (no_insert_updSql ora fmt i url a t d)
          · obtain ⟨ext, hext, hp⟩ := storageDataCheck_trace ora fmt i url a resp
                (DBCall.update rrTable (twoFieldData url a) (lc ("id")) (PyVal.int i)
                  :: (execute_sql_query ora (updSqlQuery fmt i url a)).2)
            refine ⟨(execute_sql_query ora (updSqlQuery fmt i url a)).2 ++ ext, ?_, ?_⟩
            · simp only [storageRowCore, ho, hre, if_neg hE]
              rw [hext, List.cons_append]
            · intro t d hd
              rcases List.mem_append.mp hd with hd1 | hd2
              · exact absurd hd1 (no_insert_updSql ora fmt i url a t d)
              · exact hp t d hd2

lemma storageRowCore_head (ora : Oracle) (fmt : ℚ → List Char) (i : Nat)
    (url : List Char) (a : ℚ) :
    (storageRowCore ora fmt i url a).2.head?
      = some (DBCall.update rrTable (twoFieldData url a) (lc ("id")) (PyVal.int i)) := by
  obtain ⟨ext, hext, -⟩ := storageRowCore_trace ora fmt i url a
  rw [hext]
  rfl

lemma storageRowCore_inserts (ora : Oracle) (fmt : ℚ → List Char) (i : Nat)
    (url : List Char) (a : ℚ) :
    ∀ c ∈ (storageRowCore ora fmt i url a).2, BatchInsertOk c := by
  obtain ⟨ext, hext, hp⟩ := storageRowCore_trace ora fmt i url a
  rw [hext]
  intro c hc
  rcases List.mem_cons.mp hc with rfl | hc2
  · intro t d heq
    exact DBCall.noConfusion heq
  · intro t d heq
    subst heq
    obtain ⟨h1e, h2e⟩ := hp t d hc2
    exact ⟨h1e, i, url, a, h2e⟩

lemma storageStep_calls (ora : Oracle) (fmt : ℚ → List Char)
    (extract : List Char → Option ℚ) (acc : List StorageEntry × List DBCall) (i : Nat)
    (h : ∀ c ∈ acc.2, BatchInsertOk c) :
    ∀ c ∈ (storageStep ora fmt extract acc i).2, BatchInsertOk c := by
  cases hx : extract (primaryUrl i) with
  | some a =>
      have ht : (storageStep ora fmt extract acc i).2
          = acc.2 ++ (storageRowCore ora fmt i (primaryUrl i) a).2 := by
        simp only [storageStep, hx]
      rw [ht]
      intro c hc
      rcases List.mem_append.mp hc with h1 | h2
      · exact h c h1
      · exact storageRowCore_inserts ora fmt i (primaryUrl i) a c h2
  | none =>
      cases hx2 : extract (altUrl i) with
      | some a =>
          have ht : (storageStep ora fmt extract acc i).2
              = acc.2 ++ (storageRowCore ora fmt i (altUrl i) a).2 := by
            simp only [storageStep, hx, hx2]
          rw [ht]
          intro c hc
          rcases List.mem_append.mp hc with h1 | h2
          · exact h c h1
          · exact storageRowCore_inserts ora fmt i (altUrl i) a c h2
      | none =>
          have ht : (storageStep ora fmt extract acc i).2 = acc.2 := by
            simp only [storageStep, hx, hx2]
          rw [ht]
          exact h

lemma foldl_storage_calls (ora : Oracle) (fmt : ℚ → List Char)
    (extract : List Char → Option ℚ) :
    ∀ (idxs : List Nat) (acc : List StorageEntry × List DBCall),
      (∀ c ∈ acc.2, BatchInsertOk c) →
      ∀ c ∈ (idxs.foldl (storageStep ora fmt extract) acc).2, BatchInsertOk c := by
  intro idxs
  induction idxs with
  | nil =>
      intro acc h
      exact h
  | cons i rest ih =>
      intro acc h
      rw [List.foldl_cons]
      exact ih _ (storageStep_calls ora fmt extract acc i h)

/-- C5 (amended): both `process_receipt_images` and image.py's
`populate_refund_requests_from_bucket` persist receipts exclusively as
two-field `{image_url, amount}` inserts into `refund_requests`; the batch
storage processor's structured update always carries exactly those two
fields, but every insert it issues — its missing-row fallback — is the
three-field record that also carries the explicit id. -/
theorem c5_persistence_amended :
    (∀ (ora : Oracle) (extract : List Char → Option ℚ) (urls : List (List Char)),
      ∀ c ∈ (process_receipt_images ora extract urls).2, TwoFieldInsert c)
    ∧ (∀ (ora : Oracle) (extract : List Char → Except Unit (Option ℚ)),
      ∀ c ∈ (populate_refund_requests_from_bucket ora extract).1, TwoFieldInsert c)
    ∧ (∀ (ora : Oracle) (fmt : ℚ → List Char) (i : Nat) (url : List Char) (a : ℚ),
      (storageRowCore ora fmt i url a).2.head?
        = some (DBCall.update rrTable (twoFieldData url a) (lc ("id")) (PyVal.int i)))
    ∧ (∀ (ora : Oracle) (fmt : ℚ → List Char) (extract : List Char → Option ℚ)
        (s e : Nat) (t : List Char) (d : List (List Char × PyVal)),
      DBCall.insert t d ∈ (fetch_and_process_storage_receipts ora fmt extract s e).2 →
        t = rrTable ∧ ∃ i url a, d = threeFieldData i url a) := by
  refine ⟨?_, ?_, ?_, ?_⟩
  · intro ora extract urls
    exact foldl_receipt_calls ora extract urls ([], [])
      (fun c hc => absurd hc (List.not_mem_nil _))
  · intro ora extract
    exact foldl_populate_calls ora extract imageFiles ([], true)
      (fun c hc => absurd hc (List.not_mem_nil _))
  · exact storageRowCore_head
  · intro ora fmt extract s e t d hmem
    have hall := foldl_storage_calls ora fmt extract (List.range' s (e + 1 - s)) ([], [])
      (fun c hc => absurd hc (List.not_mem_nil _))
    exact hall _ hmem t d rfl

/-- A database client making the batch processor take its insert fallback:
updates succeed with empty data and the row-existence check comes back
empty. -/
def storOra : Oracle := fun c =>
  match c with
  | DBCall.update _ _ _ _ => Except.ok ⟨Option.none, some []⟩
  | DBCall.rpc _ _ => Except.ok ⟨Option.none, some []⟩
  | _ => Except.ok ⟨Option.none, some [[(lc ("id"), PyVal.int 1)]]⟩

/-- Counterexample to C5 as stated: when the target row is missing, the
batch storage processor persists a receipt as a record with three fields —
`id`, `image_url` and `amount` — not "exactly the two fields image_url and
amount". -/
theorem c5_counterexample :
    DBCall.insert rrTable (threeFieldData 1 (primaryUrl 1) 42)
      ∈ (fetch_and_process_storage_receipts storOra (fun _ => lc ("42"))
          (fun _ => some 42) 1 1).2
    ∧ (threeFieldData 1 (primaryUrl 1) 42).map Prod.fst
        = [lc ("id"), lc ("image_url"), lc ("amount")] := by
  exact ⟨by decide, by decide⟩

/-- Witness for C5 (amended) at concrete runs of the per-request pipeline
and the batch processor. -/
theorem c5_witness :
    (DBCall.insert rrTable (twoFieldData (lc ("u1")) 7)
        ∈ (process_receipt_images okOra (fun _ => some 7) [lc ("u1")]).2
      ∧ TwoFieldInsert (DBCall.insert rrTable (twoFieldData (lc ("u1")) 7)))
    ∧ (DBCall.insert rrTable (threeFieldData 2 (primaryUrl 2) 42)
        ∈ (fetch_and_process_storage_receipts storOra (fun _ => lc ("42"))
            (fun _ => some 42) 2 2).2
      ∧ rrTable = rrTable
        ∧ ∃ i url a, threeFieldData 2 (primaryUrl 2) 42 = threeFieldData i url a) := by
  constructor
  · constructor
    · decide
    · exact c5_persistence_amended.1 okOra (fun _ => some 7) [lc ("u1")] _ (by decide)
  · constructor
    · decide
    · exact c5_persistence_amended.2.2.2 storOra (fun _ => lc ("42")) (fun _ => some 42) 2 2
        rrTable (threeFieldData 2 (primaryUrl 2) 42) (by decide)

/-- The concatenated per-item filesystem events, stated claim-side. -/
def itemEventsAll : List UrlOutcome → List FsEvent
  | [] => []
  | o :: rest => itemEvents o ++ itemEventsAll rest

lemma audioLoopGo_spec :
    ∀ (outs : List UrlOutcome) (p : List (List Char)),
      (∀ f ∈ downloadedFiles outs, f ∉ p) → (downloadedFiles outs).Nodup →
      (audioLoopGo outs p).1 = itemEventsAll outs
        ∧ (audioLoopGo outs p).2 = p ++ claimLeftover outs := by
  intro outs
  induction outs with
  | nil =>
      intro p h1 h2
      exact ⟨rfl, by simp [audioLoopGo, claimLeftover]⟩
  | cons o rest ih =>
      intro p h1 h2
      cases hdl : o.dl with
      | none =>
          have hdf : downloadedFiles (o :: rest) = downloadedFiles rest := by
            simp [downloadedFiles, List.filterMap_cons, hdl]
          have hstep : stepProcessed o p = p := by
            simp [stepProcessed, hdl]
          have hcl : claimLeftover (o :: rest) = claimLeftover rest := by
            simp [claimLeftover, List.filterMap_cons, hdl]
          rw [hdf] at h1 h2
          obtain ⟨ih1, ih2⟩ := ih p h1 h2
          constructor
          · show itemEvents o ++ (audioLoopGo rest (stepProcessed o p)).1
              = itemEvents o ++ itemEventsAll rest
            rw [hstep, ih1]
          · show (audioLoopGo rest (stepProcessed o p)).2 = p ++ claimLeftover (o :: rest)
            rw [hstep, ih2, hcl]
      | some f =>
          have hdf : downloadedFiles (o :: rest) = f :: downloadedFiles rest := by
            simp [downloadedFiles, List.filterMap_cons, hdl]
          have hfnp : f ∉ p := by
            apply h1
            rw [hdf]
            exact List.mem_cons_self f _
          rw [hdf] at h1 h2
          have hfrest : f ∉ downloadedFiles rest := (List.nodup_cons.mp h2).1
          have h2rest : (downloadedFiles rest).Nodup := (List.nodup_cons.mp h2).2
          have h1rest : ∀ f2 ∈ downloadedFiles rest, f2 ∉ p :=
            fun f2 hf2 => h1 f2 (List.mem_cons_of_mem f hf2)
          by_cases he : eagerDone o = true
          · have herase : (p ++ [f]).erase f = p := by
              rw [List.erase_append_right _ hfnp, List.erase_cons_head, List.append_nil]
            have hstep : stepProcessed o p = p := by
              simp [stepProcessed, hdl, he, herase]
            have hcl : claimLeftover (o :: rest) = claimLeftover rest := by
              simp [claimLeftover, List.filterMap_cons, hdl, he]
            obtain ⟨ih1, ih2⟩ := ih p h1rest h2rest
            constructor
            · show itemEvents o ++ (audioLoopGo rest (stepProcessed o p)).1
                = itemEvents o ++ itemEventsAll rest
              rw [hstep, ih1]
            · show (audioLoopGo rest (stepProcessed o p)).2 = p ++ claimLeftover (o :: rest)
              rw [hstep, ih2, hcl]
          · have hef : eagerDone o = false := by
              cases hh : eagerDone o with
              | false => rfl
              | true => exact absurd hh he
            have hstep : stepProcessed o p = p ++ [f] := by
              simp [stepProcessed, hdl, hef]
            have hcl : claimLeftover (o :: rest) = f :: claimLeftover rest := by
              simp [claimLeftover, List.filterMap_cons, hdl, hef]
            have h1rest2 : ∀ f2 ∈ downloadedFiles rest, f2 ∉ p ++ [f] := by
              intro f2 hf2 hmem
              rcases List.mem_append.mp hmem with hm1 | hm2
              · exact h1rest f2 hf2 hm1
              · simp only [List.mem_cons, List.not_mem_nil, or_false] at hm2
                rw [hm2] at hf2
                exact hfrest hf2
            obtain ⟨ih1, ih2⟩ := ih (p ++ [f]) h1rest2 h2rest
            constructor
            · show itemEvents o ++ (audioLoopGo rest (stepProcessed o p)).1
                = itemEvents o ++ itemEventsAll rest
              rw [hstep, ih1]
            · show (audioLoopGo rest (stepProcessed o p)).2 = p ++ claimLeftover (o :: rest)
              rw [hstep, ih2, hcl, List.append_assoc]
              rfl

lemma mem_itemEventsAll {outs : List UrlOutcome} {o : UrlOutcome} (ho : o ∈ outs)
    {x : FsEvent} (hx : x ∈ itemEvents o) : x ∈ itemEventsAll outs := by
  induction outs with
  | nil => exact absurd ho (List.not_mem_nil o)
  | cons o2 rest ih =>
      rcases List.mem_cons.mp ho with rfl | ho2
      · exact List.mem_append_left _ hx
      · exact List.mem_append_right _ (ih ho2)

/-- C8 (amended): with FFmpeg configured and the temp directory freshly
created, `process_audio_urls` (when the downloaded file names are distinct)
ends its event trace with a best-effort cleanup of exactly the downloaded
files that were not eagerly unlinked, followed by the temp-directory
cleanup; and every downloaded file whose item reaches the eager-cleanup
block (i.e. neither the download-failed nor the transcription-failed
`continue` path) and whose unlink succeeds is unlinked eagerly within its
item.  The transcription-failed path skips the eager unlink (see the
counterexample), leaving its file to the final cleanup. -/
theorem c8_cleanup_amended (outs : List UrlOutcome) (td : List Char)
    (hnd : (downloadedFiles outs).Nodup) :
    (process_audio_urls true true false td outs).2
      = itemEventsAll outs
        ++ (if (claimLeftover outs).isEmpty then []
            else [FsEvent.cleanupFiles (claimLeftover outs)])
        ++ [FsEvent.cleanupDir td]
    ∧ ∀ o ∈ outs, ∀ f, o.dl = some f → eagerDone o = true →
        FsEvent.unlinked f ∈ (process_audio_urls true true false td outs).2 := by
  obtain ⟨h1, h2⟩ := audioLoopGo_spec outs []
    (fun f hf => List.not_mem_nil f) hnd
  have htr : (process_audio_urls true true false td outs).2
      = itemEventsAll outs
        ++ (if (claimLeftover outs).isEmpty then []
            else [FsEvent.cleanupFiles (claimLeftover outs)])
        ++ [FsEvent.cleanupDir td] := by
    show [] ++ (audioLoopGo outs []).1
        ++ (if (audioLoopGo outs []).2.isEmpty then []
            else [FsEvent.cleanupFiles (audioLoopGo outs []).2])
        ++ [FsEvent.cleanupDir td] = _
    rw [h1, h2, List.nil_append, List.nil_append]
  refine ⟨htr, ?_⟩
  intro o ho f hdl he
  rw [htr]
  apply List.mem_append_left
  apply List.mem_append_left
  apply mem_itemEventsAll ho
  simp [itemEvents, hdl, he]

/-- An item whose transcription comes back as an `Error...` string: its
path takes the `continue` at agent.py line 897. -/
def transFailOut : UrlOutcome :=
  ⟨lc ("http://a/u1"), some (lc ("f1")), Except.ok (lc ("Error: boom"), lc ("s")),
    true, true⟩

/-- Counterexample to C8 as stated: a downloaded file whose transcription
fails is NOT deleted eagerly after its item is processed — the
transcription-failed path `continue`s past the eager cleanup block — and
the file reaches the final best-effort cleanup instead. -/
theorem c8_counterexample :
    FsEvent.unlinked (lc ("f1"))
        ∉ (process_audio_urls true true false (lc ("td")) [transFailOut]).2
    ∧ FsEvent.download (lc ("f1"))
        ∈ (process_audio_urls true true false (lc ("td")) [transFailOut]).2
    ∧ FsEvent.cleanupFiles [lc ("f1")]
        ∈ (process_audio_urls true true false (lc ("td")) [transFailOut]).2 := by
  exact ⟨by decide, by decide, by decide⟩

/-- An item that downloads, transcribes successfully, and is eagerly
unlinked. -/
def successOut : UrlOutcome :=
  ⟨lc ("http://a/u2"), some (lc ("f2")), Except.ok (lc ("hello"), lc ("sum")),
    true, true⟩

/-- Witness for C8 (amended) at a concrete run. -/
theorem c8_witness :
    (downloadedFiles [successOut]).Nodup
    ∧ (process_audio_urls true true false (lc ("td")) [successOut]).2
        = itemEventsAll [successOut]
          ++ (if (claimLeftover [successOut]).isEmpty then []
              else [FsEvent.cleanupFiles (claimLeftover [successOut])])
          ++ [FsEvent.cleanupDir (lc ("td"))]
    ∧ FsEvent.unlinked (lc ("f2"))
        ∈ (process_audio_urls true true false (lc ("td")) [successOut]).2 := by
  have hnd : (downloadedFiles [successOut]).Nodup := by decide
  refine ⟨hnd, (c8_cleanup_amended [successOut] (lc ("td")) hnd).1, ?_⟩
  exact (c8_cleanup_amended [successOut] (lc ("td")) hnd).2 successOut (by decide)
    (lc ("f2")) (by decide) (by decide)
